import Mathlib

/-!
Verification of the notification delivery service against its specification.

The Go source is shallowly embedded: entities become structures, repository
tables become lists kept in insertion order (the SQL queries used by the
claims have no ORDER BY unless noted), `time.Now()` becomes an explicit
`now : Nat` parameter (Unix nanoseconds), UUIDs become `Nat`, and fallible
operations return `Except`.
-/

namespace NotificationService

/-- Delivery status (`entity.DeliveryStatus` in `delivery.go`). -/
inductive DeliveryStatus
  | pending
  | sent
  | delivered
  | failed
  | expired
deriving DecidableEq, Repr

/-- Channel / token type (`entity.TokenType` in `token.go`). -/
inductive TokenType
  | websocket
  | apns
  | fcm
deriving DecidableEq, Repr

/-- One delivery-tracking row (`entity.DeliveryTracking` in `delivery.go`).
Timestamps are `Nat` nanosecond instants; optional timestamps are `Option Nat`. -/
structure DeliveryTracking where
  id : Nat
  notificationID : Nat
  deviceID : Nat
  channel : TokenType
  status : DeliveryStatus
  sentAt : Option Nat := none
  deliveredAt : Option Nat := none
  failedAt : Option Nat := none
  retryCount : Nat := 0
  errorMessage : String := ""
  createdAt : Nat
  updatedAt : Nat
deriving DecidableEq, Repr

/-- `entity.NewDeliveryTracking`: fresh row in status PENDING with retry count 0.
The fresh UUID is passed in as `id`. -/
def newDeliveryTracking (id notificationID deviceID : Nat) (channel : TokenType)
    (now : Nat) : DeliveryTracking :=
  { id := id
    notificationID := notificationID
    deviceID := deviceID
    channel := channel
    status := .pending
    retryCount := 0
    createdAt := now
    updatedAt := now }

/-- `postgres.DeliveryRepository.GetByID` (`part_015`): single-row lookup by id. -/
def getByID (rows : List DeliveryTracking) (id : Nat) : Option DeliveryTracking :=
  rows.find? (fun r => r.id == id)

/-- `postgres.DeliveryRepository.UpdateStatus` (`part_015` lines 262-271): a raw
`UPDATE ... SET status, updated_at WHERE id = $1` with no guard on the current
status. -/
def repoUpdateStatus (rows : List DeliveryTracking) (id : Nat)
    (status : DeliveryStatus) (now : Nat) : List DeliveryTracking :=
  rows.map (fun r => if r.id == id then { r with status := status, updatedAt := now } else r)

/-- `postgres.DeliveryRepository.MarkAsSent` (`part_015`): sets status SENT and
`sent_at`, unconditionally. -/
def repoMarkAsSent (rows : List DeliveryTracking) (id : Nat) (now : Nat) :
    List DeliveryTracking :=
  rows.map (fun r =>
    if r.id == id then { r with status := .sent, sentAt := some now, updatedAt := now } else r)

/-- `postgres.DeliveryRepository.MarkAsDelivered` (`part_015`): sets status
DELIVERED and `delivered_at`, unconditionally (no check of the current status). -/
def repoMarkAsDelivered (rows : List DeliveryTracking) (id : Nat) (now : Nat) :
    List DeliveryTracking :=
  rows.map (fun r =>
    if r.id == id then { r with status := .delivered, deliveredAt := some now, updatedAt := now } else r)

/-- `postgres.DeliveryRepository.MarkAsFailed` (`part_015`): sets status FAILED,
`failed_at`, the error message, and increments `retry_count` in SQL. -/
def repoMarkAsFailed (rows : List DeliveryTracking) (id : Nat) (errorMsg : String)
    (now : Nat) : List DeliveryTracking :=
  rows.map (fun r =>
    if r.id == id then
      { r with status := .failed, failedAt := some now, errorMessage := errorMsg,
               retryCount := r.retryCount + 1, updatedAt := now }
    else r)

/-- `usecase.isValidStatusTransition` (`part_010` lines 281-301), translated
switch case by switch case: from PENDING every target is accepted, from SENT
only DELIVERED or FAILED, from FAILED only PENDING, DELIVERED and EXPIRED
accept nothing. -/
def isValidStatusTransition : DeliveryStatus → DeliveryStatus → Bool
  | .pending, _ => true
  | .sent, t => t == .delivered || t == .failed
  | .delivered, _ => false
  | .failed, t => t == .pending
  | .expired, _ => false

/-- Error values of `usecase.DeliveryService` (`part_010`). -/
inductive DeliveryError
  | deliveryNotFound
  | failedToCreateDelivery
  | failedToUpdateDelivery
  | invalidDeliveryStatus
  | deliveryAlreadyCompleted
deriving DecidableEq, Repr

/-- `usecase.DeliveryService.UpdateStatus` (`part_010` lines 236-261): look the
row up, validate the transition with `isValidStatusTransition`, then update via
the repository; the repository itself is assumed reachable (its driver errors
are not modelled). -/
def DeliveryService.updateStatus (rows : List DeliveryTracking) (deliveryID : Nat)
    (status : DeliveryStatus) (now : Nat) :
    Except DeliveryError (List DeliveryTracking) :=
  match getByID rows deliveryID with
  | none => .error .deliveryNotFound
  | some delivery =>
    if isValidStatusTransition delivery.status status then
      .ok (repoUpdateStatus rows deliveryID status now)
    else
      .error .invalidDeliveryStatus

/-- The allowed-transition set exactly as the specification (§4.4) and claim C1
state it: PENDING→(SENT, FAILED, EXPIRED); SENT→(DELIVERED, FAILED, EXPIRED);
FAILED→PENDING; DELIVERED and EXPIRED terminal. Written from the spec wording,
to be compared with `isValidStatusTransition` from the source. -/
def specAllowedTransition : DeliveryStatus → DeliveryStatus → Bool
  | .pending, t => t == .sent || t == .failed || t == .expired
  | .sent, t => t == .delivered || t == .failed || t == .expired
  | .failed, t => t == .pending
  | .delivered, _ => false
  | .expired, _ => false

/-- The transition set the code actually enforces, written as an explicit
enumeration (the amended form of claim C1): PENDING→anything, SENT→DELIVERED,
SENT→FAILED, FAILED→PENDING, nothing out of DELIVERED or EXPIRED. -/
def amendedAllowedTransition : DeliveryStatus → DeliveryStatus → Bool
  | .pending, _ => true
  | .sent, .delivered => true
  | .sent, .failed => true
  | .failed, .pending => true
  | _, _ => false

/-- A concrete PENDING row used as the C1 counterexample input. -/
def c1Row : DeliveryTracking :=
  { id := 1, notificationID := 10, deviceID := 20, channel := .websocket,
    status := .pending, createdAt := 0, updatedAt := 0 }

/-- C1 counterexample: the claim says the requested transition PENDING→DELIVERED
is rejected with an invalid-status error and leaves the row unchanged, but
`isValidStatusTransition` accepts every transition out of PENDING, so
`UpdateStatus` applies PENDING→DELIVERED; the code also rejects SENT→EXPIRED,
which the claimed allowed set contains. -/
theorem updateStatus_accepts_pending_to_delivered :
    specAllowedTransition .pending .delivered = false ∧
    isValidStatusTransition .pending .delivered = true ∧
    DeliveryService.updateStatus [c1Row] 1 .delivered 5 =
      .ok [{ c1Row with status := .delivered, updatedAt := 5 }] ∧
    specAllowedTransition .sent .expired = true ∧
    isValidStatusTransition .sent .expired = false := by
  refine ⟨by decide, by decide, by rfl, by decide, by decide⟩

/-- C1 auxiliary: the code's transition predicate coincides with the amended
explicit enumeration. -/
theorem isValid_eq_amended (a b : DeliveryStatus) :
    isValidStatusTransition a b = amendedAllowedTransition a b := by
  cases a <;> cases b <;> rfl

/-- C1 (corrected): for every row present in the repository and every requested
status, `UpdateStatus` applies the new status iff the transition is in the set
PENDING→anything, SENT→(DELIVERED, FAILED), FAILED→PENDING; every other request
(in particular anything out of DELIVERED or EXPIRED, and SENT→EXPIRED) is
rejected with the invalid-status error and no update reaches the repository;
an absent row yields the not-found error. -/
theorem updateStatus_characterization (rows : List DeliveryTracking)
    (deliveryID : Nat) (status : DeliveryStatus) (now : Nat) :
    (∀ r, getByID rows deliveryID = some r →
      (amendedAllowedTransition r.status status = true →
        DeliveryService.updateStatus rows deliveryID status now =
          .ok (repoUpdateStatus rows deliveryID status now)) ∧
      (amendedAllowedTransition r.status status = false →
        DeliveryService.updateStatus rows deliveryID status now =
          .error .invalidDeliveryStatus)) ∧
    (getByID rows deliveryID = none →
      DeliveryService.updateStatus rows deliveryID status now =
        .error .deliveryNotFound) := by
  constructor
  · intro r hr
    constructor
    · intro hall
      unfold DeliveryService.updateStatus
      rw [hr]
      simp [isValid_eq_amended, hall]
    · intro hall
      unfold DeliveryService.updateStatus
      rw [hr]
      simp [isValid_eq_amended, hall]
  · intro hnone
    unfold DeliveryService.updateStatus
    rw [hnone]

/-- C1 witness: the characterization applied to a concrete one-row repository,
accepting FAILED→PENDING. -/
theorem updateStatus_characterization_witness :
    DeliveryService.updateStatus [{ c1Row with status := .failed }] 1 .pending 7 =
      .ok (repoUpdateStatus [{ c1Row with status := .failed }] 1 .pending 7) := by
  exact ((updateStatus_characterization [{ c1Row with status := .failed }] 1 .pending 7).1
    { c1Row with status := .failed } (by rfl)).1 (by rfl)

/-! ### Acknowledgement path (`DeliveryService.ConfirmDelivery`, claim C3) -/

/-- `postgres.DeliveryRepository.GetByNotificationID` (`part_015`): every row of
a notification; the SQL has no ORDER BY, so rows come back in repository
(insertion) order. -/
def getByNotificationID (rows : List DeliveryTracking) (notificationID : Nat) :
    List DeliveryTracking :=
  rows.filter (fun r => r.notificationID == notificationID)

/-- The row `ConfirmDelivery`'s loop selects: the source iterates over
`GetByNotificationID` and breaks on the first row whose `DeviceID` matches. -/
def confirmLookup (rows : List DeliveryTracking) (notificationID deviceID : Nat) :
    Option DeliveryTracking :=
  (getByNotificationID rows notificationID).find? (fun d => d.deviceID == deviceID)

/-- `usecase.DeliveryService.ConfirmDelivery` (`part_010` lines 161-207): mark
the first matching row DELIVERED through the repository (no status check); if
none matches, create a fresh row and mark it DELIVERED. The fresh UUID is
passed in as `freshID`. -/
def DeliveryService.confirmDelivery (rows : List DeliveryTracking)
    (notificationID deviceID freshID now : Nat) :
    Except DeliveryError (List DeliveryTracking) :=
  match confirmLookup rows notificationID deviceID with
  | some delivery => .ok (repoMarkAsDelivered rows delivery.id now)
  | none =>
      let delivery := newDeliveryTracking freshID notificationID deviceID .websocket now
      .ok (repoMarkAsDelivered (rows ++ [delivery]) delivery.id now)

/-- An old PENDING row for the C3 counterexample. -/
def c3RowOld : DeliveryTracking :=
  { id := 1, notificationID := 10, deviceID := 20, channel := .websocket,
    status := .pending, createdAt := 0, updatedAt := 0 }

/-- A newer SENT row for the same (notification, device) pair. -/
def c3RowNew : DeliveryTracking :=
  { id := 2, notificationID := 10, deviceID := 20, channel := .websocket,
    status := .sent, sentAt := some 100, createdAt := 100, updatedAt := 100 }

/-- C3 counterexample: with an older PENDING row and a more recent SENT row for
the pair, the ack transitions the older PENDING row to DELIVERED (the claim
says only SENT rows transition, and that the most recent row is the one
located) and leaves the most recent SENT row untouched. -/
theorem confirmDelivery_transitions_pending_row :
    DeliveryService.confirmDelivery [c3RowOld, c3RowNew] 10 20 99 200 =
      .ok [{ c3RowOld with status := .delivered, deliveredAt := some 200, updatedAt := 200 },
           c3RowNew] ∧
    c3RowOld.status = .pending ∧
    c3RowNew.status = .sent ∧
    c3RowOld.createdAt < c3RowNew.createdAt := by
  refine ⟨by rfl, by decide, by decide, by decide⟩

/-- C3 (corrected): for every ack on `(notification_id, device_id)`, the first
tracking row for that pair in repository order — not the most recent — is
transitioned to DELIVERED regardless of its current status (the service calls
the repository's unguarded `MarkAsDelivered` directly); when no row exists for
the pair, a new row pre-marked DELIVERED is created and the existing rows are
untouched. -/
theorem confirmDelivery_characterization (rows : List DeliveryTracking)
    (notificationID deviceID freshID now : Nat) :
    (∀ d, confirmLookup rows notificationID deviceID = some d →
      DeliveryService.confirmDelivery rows notificationID deviceID freshID now =
        .ok (repoMarkAsDelivered rows d.id now) ∧
      ∀ r ∈ repoMarkAsDelivered rows d.id now, r.id = d.id → r.status = .delivered) ∧
    (confirmLookup rows notificationID deviceID = none →
      (∀ r ∈ rows, r.id ≠ freshID) →
      ∃ fresh, DeliveryService.confirmDelivery rows notificationID deviceID freshID now =
          .ok (rows ++ [fresh]) ∧
        fresh.status = .delivered ∧ fresh.notificationID = notificationID ∧
        fresh.deviceID = deviceID) := by
  constructor
  · intro d hd
    constructor
    · unfold DeliveryService.confirmDelivery
      rw [hd]
    · intro r hr hid
      unfold repoMarkAsDelivered at hr
      obtain ⟨a, _, ha⟩ := List.mem_map.1 hr
      by_cases h : a.id = d.id
      · simp [h] at ha
        subst ha
        rfl
      · simp [h] at ha
        subst ha
        exact absurd hid h
  · intro hnone hfresh
    refine ⟨{ newDeliveryTracking freshID notificationID deviceID .websocket now with
              status := .delivered, deliveredAt := some now }, ?_, rfl, rfl, rfl⟩
    unfold DeliveryService.confirmDelivery
    rw [hnone]
    simp only [Except.ok.injEq]
    unfold repoMarkAsDelivered
    rw [List.map_append]
    congr 1
    · conv_rhs => rw [show rows = rows.map id from (List.map_id rows).symm]
      apply List.map_congr_left
      intro a ha
      have := hfresh a ha
      simp [newDeliveryTracking, this]
    · simp [newDeliveryTracking]

/-- C3 witness: the characterization applied to a concrete single-row repository
whose row is in FAILED status. -/
theorem confirmDelivery_characterization_witness :
    DeliveryService.confirmDelivery [{ c3RowOld with status := .failed }] 10 20 99 200 =
      .ok (repoMarkAsDelivered [{ c3RowOld with status := .failed }] 1 200) :=
  ((confirmDelivery_characterization [{ c3RowOld with status := .failed }] 10 20 99 200).1
    { c3RowOld with status := .failed } (by rfl)).1

/-! ### Retry scheduler (`retry_manager.go`, claims C4, C5, C6) -/

/-- `queue.DeliveryTask` (`retry_manager.go` lines 237-244): wraps the delivery
row loaded from the repository plus the private `attempts` counter. -/
structure DeliveryTask where
  delivery : DeliveryTracking
  attempts : Nat := 0
deriving DecidableEq, Repr

/-- `DeliveryTask.GetRetryCount` (`retry_manager.go` line 263): returns the
retry count of the wrapped delivery row. -/
def DeliveryTask.getRetryCount (t : DeliveryTask) : Nat :=
  t.delivery.retryCount

/-- `DeliveryTask.IncrementRetryCount` (`retry_manager.go` line 268): increments
the separate `attempts` field — it does not touch `delivery.RetryCount`. -/
def DeliveryTask.incrementRetryCount (t : DeliveryTask) : DeliveryTask :=
  { t with attempts := t.attempts + 1 }

/-- `DeliveryTask.Execute` (`retry_manager.go` lines 247-255): performs the
repository's raw `UpdateStatus` back to PENDING, with no guard on the row's
current status. -/
def DeliveryTask.execute (t : DeliveryTask) (rows : List DeliveryTracking)
    (now : Nat) : List DeliveryTracking :=
  repoUpdateStatus rows t.delivery.id .pending now

/-- Outcome of one invocation of `RetryManager.executeWithRetry` on a task. -/
inductive RetryOutcome
  | movedToDLQ
  | succeeded
  | rescheduled (next : DeliveryTask)
deriving DecidableEq, Repr

/-- One invocation of `RetryManager.executeWithRetry` (`retry_manager.go` lines
116-159): if `GetRetryCount ≥ MaxRetries` the task moves to the dead-letter
queue; otherwise the task executes — success drops it, failure calls
`IncrementRetryCount` and reschedules it after the backoff delay. Whether the
execution fails is the `execFails` input. -/
def executeWithRetryStep (maxRetries : Nat) (execFails : Bool)
    (t : DeliveryTask) : RetryOutcome :=
  if maxRetries ≤ t.getRetryCount then .movedToDLQ
  else if execFails then .rescheduled t.incrementRetryCount
  else .succeeded

/-- Final state of a chain of `executeWithRetry` invocations. -/
inductive RetryRun
  | dlq
  | running (t : DeliveryTask)
deriving DecidableEq, Repr

/-- `n` consecutive always-failing invocations of `executeWithRetry` on a task
(each reschedule re-invokes `executeWithRetry` on the incremented task). -/
def runFailures (maxRetries : Nat) : Nat → DeliveryTask → RetryRun
  | 0, t => .running t
  | n + 1, t =>
    match executeWithRetryStep maxRetries true t with
    | .movedToDLQ => .dlq
    | .succeeded => .running t
    | .rescheduled t2 => runFailures maxRetries n t2

/-- A fresh delivery row with retry count 0, input of the C4 failing run. -/
def c4Row : DeliveryTracking :=
  { id := 4, notificationID := 11, deviceID := 21, channel := .websocket,
    status := .failed, retryCount := 0, createdAt := 0, updatedAt := 0 }

/-- The retry task built from `c4Row`, as `processPendingDeliveries` builds it. -/
def c4Task : DeliveryTask := { delivery := c4Row }

set_option maxRecDepth 4000 in
/-- C4 (code bug): `IncrementRetryCount` bumps the private `attempts` field
while `GetRetryCount` reads `delivery.RetryCount`, so a failed execution never
changes the observable retry count; consequently a task that starts below
`max_retries` is rescheduled forever and never moves to the dead-letter queue —
concretely, the task for a row with retry count 0 under the default
max_retries = 5 is still running after 100 consecutive failures. -/
theorem deliveryTask_retryCount_never_advances :
    (∀ t : DeliveryTask, t.incrementRetryCount.getRetryCount = t.getRetryCount) ∧
    (∀ (n maxRetries : Nat) (t : DeliveryTask), t.getRetryCount < maxRetries →
      runFailures maxRetries n t ≠ .dlq) ∧
    runFailures 5 100 c4Task = .running { c4Task with attempts := 100 } := by
  refine ⟨fun t => rfl, ?_, by rfl⟩
  intro n
  induction n with
  | zero =>
    intro maxRetries t _ h
    exact RetryRun.noConfusion h
  | succ n ih =>
    intro maxRetries t hlt
    unfold runFailures executeWithRetryStep
    rw [if_neg (Nat.not_le.2 hlt)]
    simp only [if_pos rfl]
    exact ih maxRetries t.incrementRetryCount hlt

/-- C4 witness: the never-reaches-DLQ part applied to the concrete task. -/
theorem deliveryTask_retryCount_never_advances_witness :
    runFailures 5 3 c4Task ≠ .dlq :=
  deliveryTask_retryCount_never_advances.2.1 3 5 c4Task (by decide)

/-- A delivery row already confirmed DELIVERED, input of the C5 failing run. -/
def c5Row : DeliveryTracking :=
  { id := 5, notificationID := 12, deviceID := 22, channel := .websocket,
    status := .delivered, deliveredAt := some 50, createdAt := 0, updatedAt := 50 }

/-- The retry task whose wrapped row has meanwhile been acknowledged. -/
def c5Task : DeliveryTask := { delivery := c5Row }

/-- C5 (code bug): a retry task's `Execute` performs the repository's unguarded
`UpdateStatus` to PENDING, so every row carrying the task's delivery id — even
one already DELIVERED — is set back to PENDING; concretely, executing the task
for an acknowledged row reverts its status from DELIVERED to PENDING, where the
spec says DELIVERED is absorbing and such a retry must be a no-op. -/
theorem deliveryTask_execute_reverts_delivered :
    (∀ (t : DeliveryTask) (rows : List DeliveryTracking) (now : Nat),
      ∀ r ∈ t.execute rows now, r.id = t.delivery.id → r.status = .pending) ∧
    c5Row.status = .delivered ∧
    DeliveryTask.execute c5Task [c5Row] 60 =
      [{ c5Row with status := .pending, updatedAt := 60 }] := by
  refine ⟨?_, by decide, by rfl⟩
  intro t rows now r hr hid
  unfold DeliveryTask.execute repoUpdateStatus at hr
  obtain ⟨a, _, ha⟩ := List.mem_map.1 hr
  by_cases h : a.id = t.delivery.id
  · simp [h] at ha
    subst ha
    rfl
  · simp [h] at ha
    subst ha
    exact absurd hid h

/-- C5 witness: the general part applied to the concrete DELIVERED row. -/
theorem deliveryTask_execute_reverts_delivered_witness :
    ({ c5Row with status := .pending, updatedAt := 60 } : DeliveryTracking).status =
      .pending :=
  deliveryTask_execute_reverts_delivered.1 c5Task [c5Row] 60
    { c5Row with status := .pending, updatedAt := 60 } (by decide) (by decide)

/-- Two's-complement wrap of an unbounded integer into the int64 range; Go's
signed integers (and hence `time.Duration`, an int64 nanosecond count) wrap on
overflow. The literals are 2^63 and 2^64. -/
def wrap64 (x : Int) : Int :=
  (x + 9223372036854775808) % 18446744073709551616 - 9223372036854775808

/-- `queue.RetryStrategy` (`retry_manager.go` lines 16-28). `BaseInterval` and
`MaxInterval` are `time.Duration`, i.e. int64 nanosecond counts; `Multiplier`
and `Jitter` are `float64`, modelled as exact rationals. -/
structure RetryStrategy where
  maxRetries : Nat
  baseInterval : Int
  multiplier : ℚ
  maxInterval : Int
  jitter : ℚ
deriving DecidableEq, Repr

/-- `queue.DefaultRetryStrategy` (`retry_manager.go` lines 30-37): 5 retries,
base 500 ms, multiplier 2.0, cap 1 min, jitter 0.2 — in nanoseconds. -/
def DefaultRetryStrategy : RetryStrategy :=
  { maxRetries := 5
    baseInterval := 500000000
    multiplier := 2
    maxInterval := 60000000000
    jitter := 1/5 }

/-- `time.Duration(math.Pow(m.strategy.Multiplier, float64(retryCount)))`
(`retry_manager.go` line 164): float pow truncated into an int64 duration,
modelled as exact rational pow followed by the floor (equals truncation for
the nonnegative values arising here; exact for the default multiplier 2.0 up
to exponent 62). When the pow value itself exceeds int64 the Go conversion is
implementation-defined, so every theorem below stays at exponents ≤ 62 where
the conversion is deterministic. -/
def powDuration (s : RetryStrategy) (retryCount : Nat) : Int :=
  ⌊s.multiplier ^ retryCount⌋

/-- `RetryManager.calculateNextRetryDelay` (`retry_manager.go` lines 162-178)
before the jitter step: the int64 product `BaseInterval * Duration(pow)` —
which wraps on overflow — then the cap. Note the cap is applied only after the
wrapping product. -/
def calculateNextRetryDelay (s : RetryStrategy) (retryCount : Nat) : Int :=
  if wrap64 (s.baseInterval * powDuration s retryCount) > s.maxInterval then
    s.maxInterval
  else wrap64 (s.baseInterval * powDuration s retryCount)

/-- The jitter step of `calculateNextRetryDelay`: with `r` standing for
`time.Now().UnixNano() % 1000`, the capped delay becomes
`delay - jitter/2 + jitter*r/1000` where `jitter = float64(delay) * s.Jitter`,
applied only when `s.Jitter > 0`; the float arithmetic is modelled exactly in
ℚ (the final truncation back to a duration is not modelled). -/
def jitteredRetryDelay (s : RetryStrategy) (retryCount : Nat) (r : Nat) : ℚ :=
  if s.jitter > 0 then
    (calculateNextRetryDelay s retryCount : ℚ)
      - (calculateNextRetryDelay s retryCount : ℚ) * s.jitter / 2
      + (calculateNextRetryDelay s retryCount : ℚ) * s.jitter * (r : ℚ) / 1000
  else (calculateNextRetryDelay s retryCount : ℚ)

/-- Wrapping is the identity inside the int64 range. -/
theorem wrap64_eq_self (x : Int) (h1 : -9223372036854775808 ≤ x)
    (h2 : x < 9223372036854775808) : wrap64 x = x := by
  unfold wrap64
  rw [Int.emod_eq_of_lt (by omega) (by omega)]
  omega

/-- Under the default multiplier 2.0 the pow-duration is exactly 2^n. -/
theorem powDuration_default (n : Nat) :
    powDuration DefaultRetryStrategy n = 2 ^ n := by
  unfold powDuration
  rw [show (DefaultRetryStrategy.multiplier ^ n : ℚ) = (((2 : Int) ^ n : Int) : ℚ) by
    push_cast [DefaultRetryStrategy]; ring]
  exact Int.floor_intCast _

/-- Below the overflow threshold (n ≤ 34 under the defaults) the int64 product
stays in range. -/
theorem default_product_in_range (n : Nat) (hn : n ≤ 34) :
    DefaultRetryStrategy.baseInterval * 2 ^ n < 9223372036854775808 ∧
    -9223372036854775808 ≤ DefaultRetryStrategy.baseInterval * 2 ^ n := by
  have hpow : (2 : Int) ^ n ≤ 2 ^ 34 := pow_le_pow_right₀ (by norm_num) hn
  have hpos : (0 : Int) ≤ 2 ^ n := by positivity
  constructor
  · calc DefaultRetryStrategy.baseInterval * 2 ^ n
        ≤ DefaultRetryStrategy.baseInterval * 2 ^ 34 := by
          apply mul_le_mul_of_nonneg_left hpow
          norm_num [DefaultRetryStrategy]
      _ < 9223372036854775808 := by norm_num [DefaultRetryStrategy]
  · have : (0 : Int) ≤ DefaultRetryStrategy.baseInterval * 2 ^ n := by
      apply mul_nonneg _ hpos
      norm_num [DefaultRetryStrategy]
    omega

/-- Below the overflow threshold the delay is exactly min(base · 2^n, cap). -/
theorem calculateNextRetryDelay_default_eq_min (n : Nat) (hn : n ≤ 34) :
    calculateNextRetryDelay DefaultRetryStrategy n =
      min (DefaultRetryStrategy.baseInterval * 2 ^ n)
        DefaultRetryStrategy.maxInterval := by
  obtain ⟨hlt, hge⟩ := default_product_in_range n hn
  have hw : wrap64 (DefaultRetryStrategy.baseInterval *
      powDuration DefaultRetryStrategy n) =
      DefaultRetryStrategy.baseInterval * 2 ^ n := by
    rw [powDuration_default]
    exact wrap64_eq_self _ hge hlt
  unfold calculateNextRetryDelay
  rw [hw, min_def]
  split_ifs with h1 h2 <;> first | rfl | omega

/-- The jitter step moves a nonnegative delay by at most ±(jitter · delay)/2,
for any strategy with nonnegative jitter. -/
theorem jitteredRetryDelay_bound (s : RetryStrategy) (n r : Nat)
    (hj : 0 ≤ s.jitter) (hd : (0 : ℚ) ≤ (calculateNextRetryDelay s n : ℚ))
    (hr : r < 1000) :
    |jitteredRetryDelay s n r - (calculateNextRetryDelay s n : ℚ)| ≤
      s.jitter * (calculateNextRetryDelay s n : ℚ) / 2 := by
  have hr1 : (r : ℚ) ≤ 999 := by exact_mod_cast Nat.le_of_lt_succ hr
  have hr0 : (0 : ℚ) ≤ (r : ℚ) := Nat.cast_nonneg r
  unfold jitteredRetryDelay
  split_ifs with h
  · rw [abs_le]
    constructor <;> nlinarith [mul_nonneg (mul_nonneg hd hj) hr0,
      mul_nonneg hd hj]
  · simp only [sub_self, abs_zero]
    exact div_nonneg (mul_nonneg hj hd) (by norm_num)

/-- C6 counterexample: at retry count 35 under the default strategy the int64
product 500 ms · 2^35 wraps negative before the cap check, so the delay is a
negative duration instead of min(base · 2^35, cap), and the delay sequence
drops from the cap at n = 34 to a negative value at n = 35 — refuting the
claimed min formula and monotonicity for every n. -/
theorem calculateNextRetryDelay_overflows_at_35 :
    calculateNextRetryDelay DefaultRetryStrategy 35 = -1266874889709551616 ∧
    calculateNextRetryDelay DefaultRetryStrategy 35 ≠
      min (DefaultRetryStrategy.baseInterval * 2 ^ 35)
        DefaultRetryStrategy.maxInterval ∧
    calculateNextRetryDelay DefaultRetryStrategy 34 =
      DefaultRetryStrategy.maxInterval ∧
    calculateNextRetryDelay DefaultRetryStrategy 35 <
      calculateNextRetryDelay DefaultRetryStrategy 34 := by
  have h35 : calculateNextRetryDelay DefaultRetryStrategy 35 =
      -1266874889709551616 := by
    unfold calculateNextRetryDelay
    rw [powDuration_default]
    norm_num [wrap64, DefaultRetryStrategy]
  have h34 : calculateNextRetryDelay DefaultRetryStrategy 34 =
      DefaultRetryStrategy.maxInterval := by
    unfold calculateNextRetryDelay
    rw [powDuration_default]
    norm_num [wrap64, DefaultRetryStrategy]
  refine ⟨h35, ?_, h34, ?_⟩
  · rw [h35]
    norm_num [DefaultRetryStrategy]
  · rw [h35, h34]
    norm_num [DefaultRetryStrategy]

/-- C6 (corrected): for every retry count below the int64 overflow threshold —
n ≤ 34 under the defaults, which covers every count the scheduler can reach
(max_retries = 5) — the delay equals min(base · 2^n, cap), successive delays
are non-decreasing and never exceed the cap; the jitter moves a nonnegative
delay by at most ±(jitter · delay)/2; the defaults are base = 500 ms,
multiplier = 2.0, cap = 60 s, jitter = 0.2, max_retries = 5 (nanoseconds).
Beyond that threshold the int64 product wraps before the cap check and the
formula fails. -/
theorem calculateNextRetryDelay_spec :
    (∀ n : Nat, n ≤ 34 → calculateNextRetryDelay DefaultRetryStrategy n =
      min (DefaultRetryStrategy.baseInterval * 2 ^ n)
        DefaultRetryStrategy.maxInterval) ∧
    (∀ n : Nat, n + 1 ≤ 34 → calculateNextRetryDelay DefaultRetryStrategy n ≤
      calculateNextRetryDelay DefaultRetryStrategy (n + 1)) ∧
    (∀ n : Nat, n ≤ 34 → calculateNextRetryDelay DefaultRetryStrategy n ≤
      DefaultRetryStrategy.maxInterval) ∧
    (∀ (n r : Nat), r < 1000 →
      (0 : ℚ) ≤ (calculateNextRetryDelay DefaultRetryStrategy n : ℚ) →
      |jitteredRetryDelay DefaultRetryStrategy n r -
          (calculateNextRetryDelay DefaultRetryStrategy n : ℚ)| ≤
        DefaultRetryStrategy.jitter *
          (calculateNextRetryDelay DefaultRetryStrategy n : ℚ) / 2) ∧
    (DefaultRetryStrategy.maxRetries = 5 ∧
     DefaultRetryStrategy.baseInterval = 500000000 ∧
     DefaultRetryStrategy.multiplier = 2 ∧
     DefaultRetryStrategy.maxInterval = 60000000000 ∧
     DefaultRetryStrategy.jitter = 1/5) := by
  refine ⟨calculateNextRetryDelay_default_eq_min, ?_, ?_,
    fun n r hr hd => jitteredRetryDelay_bound DefaultRetryStrategy n r
      (by norm_num [DefaultRetryStrategy]) hd hr,
    by norm_num [DefaultRetryStrategy]⟩
  · intro n hn
    rw [calculateNextRetryDelay_default_eq_min n (by omega),
      calculateNextRetryDelay_default_eq_min (n + 1) hn]
    apply min_le_min _ le_rfl
    have hpow : (2 : Int) ^ n ≤ 2 ^ (n + 1) :=
      pow_le_pow_right₀ (by norm_num) (by omega)
    apply mul_le_mul_of_nonneg_left hpow
    norm_num [DefaultRetryStrategy]
  · intro n hn
    rw [calculateNextRetryDelay_default_eq_min n hn]
    exact min_le_right _ _

/-- C6 witness: the min formula applied at retry count 3, and the jitter bound
at retry count 0 with jitter draw 0. -/
theorem calculateNextRetryDelay_spec_witness :
    calculateNextRetryDelay DefaultRetryStrategy 3 =
      min (DefaultRetryStrategy.baseInterval * 2 ^ 3)
        DefaultRetryStrategy.maxInterval ∧
    |jitteredRetryDelay DefaultRetryStrategy 0 0 -
        (calculateNextRetryDelay DefaultRetryStrategy 0 : ℚ)| ≤
      DefaultRetryStrategy.jitter *
        (calculateNextRetryDelay DefaultRetryStrategy 0 : ℚ) / 2 := by
  constructor
  · exact calculateNextRetryDelay_spec.1 3 (by norm_num)
  · apply calculateNextRetryDelay_spec.2.2.2.1 0 0 (by norm_num)
    have h0 : calculateNextRetryDelay DefaultRetryStrategy 0 = 500000000 := by
      rw [calculateNextRetryDelay_spec.1 0 (by norm_num)]
      norm_num [DefaultRetryStrategy]
    rw [h0]
    norm_num

/-! ### Submission aggregation (`NotificationService.SendNotificationToDevices`,
claim C2) -/

/-- One channel attempt recorded by a submission: the target device, the
channel, and the final status its tracking row was left in. -/
structure Attempt where
  deviceID : Nat
  channel : TokenType
  status : DeliveryStatus
deriving DecidableEq, Repr

/-- The environment a submission runs against: the per-device answers of the
device repository, hub, delivery repository, payload serializer, and token
repository during the run. -/
structure SendEnv where
  deviceExists : Nat → Bool
  wsConnected : Nat → Bool
  createOk : Nat → TokenType → Bool
  payloadOk : Bool
  wsSendOk : Nat → Bool
  fcmToken : Nat → Bool
  apnsToken : Nat → Bool

/-- Accumulated result of the per-device loop: the attempts recorded, the
number of entries appended to `deliveryErrors`, and the `deliveredToAny`
flag. -/
structure DeviceOutcome where
  attempts : List Attempt
  errors : Nat
  delivered : Bool
deriving DecidableEq, Repr

/-- The websocket branch of the per-device loop (`notification_service.go`
lines 327-354): create a PENDING row (a create error is recorded and the
device is skipped), serialize the payload and push via the hub (each failure
marks the row FAILED and records an error), and on success mark the row SENT
and set `deliveredToAny`. Every path ends in `continue`, skipping FCM/APNS. -/
def wsAttempt (env : SendEnv) (d : Nat) : DeviceOutcome :=
  if env.createOk d .websocket = false then ⟨[], 1, false⟩
  else if env.payloadOk = false then ⟨[⟨d, .websocket, .failed⟩], 1, false⟩
  else if env.wsSendOk d = false then ⟨[⟨d, .websocket, .failed⟩], 1, false⟩
  else ⟨[⟨d, .websocket, .sent⟩], 0, true⟩

/-- The FCM or APNS block of the per-device loop (`notification_service.go`
lines 357-398): when the channel is enabled and an active token exists, create
a tracking row; on create success the code sets `deliveredToAny` and leaves the
row PENDING (the provider call itself is not implemented), on create failure it
records an error. -/
def tokenAttempt (use hasToken createOk : Bool) (d : Nat) (ty : TokenType) :
    DeviceOutcome :=
  if use && hasToken then
    if createOk then ⟨[⟨d, ty, .pending⟩], 0, true⟩ else ⟨[], 1, false⟩
  else ⟨[], 0, false⟩

/-- One iteration of the per-device loop of `SendNotificationToDevices`: an
unknown device is skipped without recording an error; a connected device with
websocket enabled runs only the websocket branch; otherwise the FCM block and
then the APNS block run in sequence. -/
def processDevice (env : SendEnv) (useWS useFCM useAPNS : Bool) (d : Nat) :
    DeviceOutcome :=
  if env.deviceExists d = false then ⟨[], 0, false⟩
  else if useWS && env.wsConnected d then wsAttempt env d
  else
    let f := tokenAttempt useFCM (env.fcmToken d) (env.createOk d .fcm) d .fcm
    let a := tokenAttempt useAPNS (env.apnsToken d) (env.createOk d .apns) d .apns
    ⟨f.attempts ++ a.attempts, f.errors + a.errors, f.delivered || a.delivered⟩

/-- The whole per-device loop, accumulating attempts, error count and the
`deliveredToAny` flag across the target list. -/
def processDevices (env : SendEnv) (useWS useFCM useAPNS : Bool) :
    List Nat → DeviceOutcome
  | [] => ⟨[], 0, false⟩
  | d :: ds =>
    ⟨(processDevice env useWS useFCM useAPNS d).attempts ++
        (processDevices env useWS useFCM useAPNS ds).attempts,
      (processDevice env useWS useFCM useAPNS d).errors +
        (processDevices env useWS useFCM useAPNS ds).errors,
      (processDevice env useWS useFCM useAPNS d).delivered ||
        (processDevices env useWS useFCM useAPNS ds).delivered⟩

/-- The channel flags of `SendNotificationToDevices` (`notification_service.go`
lines 290-312): an empty `channels` list enables every channel; otherwise each
of websocket/fcm/apns is enabled iff its name occurs in the list. -/
def channelFlags (channels : List String) : Bool × Bool × Bool :=
  if channels.isEmpty then (true, true, true)
  else (channels.contains "websocket", channels.contains "fcm", channels.contains "apns")

/-- Errors surfaced by `NotificationService` submissions. -/
inductive SendError
  | invalidNotificationData
  | failedToSaveNotification
  | noDevicesSpecified
  | deliveryFailed
deriving DecidableEq, Repr

/-- The pair `SendNotificationToDevices` returns: the notification id string
(absent when the save failed) and the error value. -/
structure SendReturn where
  notificationID : Option Nat
  error : Option SendError
deriving DecidableEq, Repr

/-- `NotificationService.SendNotificationToDevices` (`notification_service.go`
lines 259-406): persist the notification (a save failure is fatal), reject an
empty device list, run the per-device loop, and return `ErrDeliveryFailed` with
the notification id exactly when `deliveredToAny` is false and at least one
delivery error was recorded. The marshal error of `entity.NewNotification` is
not modelled (it cannot fire for map inputs). The second component is the
trace of channel attempts. -/
def sendNotificationToDevices (env : SendEnv) (saveOk : Bool) (nid : Nat)
    (deviceIDs : List Nat) (channels : List String) : SendReturn × List Attempt :=
  if saveOk = false then (⟨none, some .failedToSaveNotification⟩, [])
  else if deviceIDs.isEmpty then (⟨some nid, some .noDevicesSpecified⟩, [])
  else
    let flags := channelFlags channels
    let o := processDevices env flags.1 flags.2.1 flags.2.2 deviceIDs
    if o.delivered = false ∧ o.errors ≠ 0 then (⟨some nid, some .deliveryFailed⟩, o.attempts)
    else (⟨some nid, none⟩, o.attempts)

/-- The environment of the C2 counterexample: the single target device exists
but has no live session and no push token. -/
def c2Env : SendEnv :=
  { deviceExists := fun _ => true
    wsConnected := fun _ => false
    createOk := fun _ _ => true
    payloadOk := true
    wsSendOk := fun _ => true
    fcmToken := fun _ => false
    apnsToken := fun _ => false }

/-- C2 counterexample: the notification is persisted and one target device is
resolved, yet the submission returns a non-error result although no channel
attempt reached SENT — with no reachable channel there are no attempts at all,
and with an FCM token the only row stays PENDING while the submission still
reports success. The claim requires a delivery-failed indicator in both
runs. -/
theorem sendNotificationToDevices_success_without_sent :
    sendNotificationToDevices c2Env true 7 [1] [] =
      (⟨some 7, none⟩, []) ∧
    sendNotificationToDevices { c2Env with fcmToken := fun _ => true } true 7 [1] [] =
      (⟨some 7, none⟩, [⟨1, .fcm, .pending⟩]) := by
  constructor <;> rfl

/-- A device's loop iteration sets `deliveredToAny` exactly when it records an
attempt that reached SENT or an FCM/APNS row (created and left PENDING). -/
theorem processDevice_delivered_iff (env : SendEnv) (useWS useFCM useAPNS : Bool)
    (d : Nat) :
    (processDevice env useWS useFCM useAPNS d).delivered =
      (processDevice env useWS useFCM useAPNS d).attempts.any
        (fun a => a.status == .sent || a.channel == .fcm || a.channel == .apns) := by
  unfold processDevice wsAttempt tokenAttempt
  split_ifs <;> simp_all

/-- The whole loop sets `deliveredToAny` exactly when some recorded attempt
reached SENT or is an FCM/APNS row. -/
theorem processDevices_delivered_iff (env : SendEnv) (useWS useFCM useAPNS : Bool)
    (ds : List Nat) :
    (processDevices env useWS useFCM useAPNS ds).delivered =
      (processDevices env useWS useFCM useAPNS ds).attempts.any
        (fun a => a.status == .sent || a.channel == .fcm || a.channel == .apns) := by
  induction ds with
  | nil => rfl
  | cons d ds ih =>
    unfold processDevices
    dsimp only
    rw [processDevice_delivered_iff, ih, List.any_append]

/-- C2 (corrected): for a persisted submission with a non-empty target list,
the result carries the notification id, the error is either absent or the
delivery-failed indicator, the submission is non-error iff `deliveredToAny`
was set or no delivery error was recorded at all, and `deliveredToAny` holds
iff some attempt reached SENT or some FCM/APNS tracking row was created (such
a row counts as delivered while remaining PENDING); in particular a target
whose every channel is unreachable records neither an attempt nor an error and
so never forces the delivery-failed indicator. -/
theorem sendNotificationToDevices_characterization (env : SendEnv) (nid : Nat)
    (deviceIDs : List Nat) (channels : List String) (hd : deviceIDs ≠ []) :
    (sendNotificationToDevices env true nid deviceIDs channels).1.notificationID =
      some nid ∧
    ((sendNotificationToDevices env true nid deviceIDs channels).1.error = none ∨
     (sendNotificationToDevices env true nid deviceIDs channels).1.error =
       some .deliveryFailed) ∧
    ((sendNotificationToDevices env true nid deviceIDs channels).1.error = none ↔
      ((processDevices env (channelFlags channels).1 (channelFlags channels).2.1
          (channelFlags channels).2.2 deviceIDs).delivered = true ∨
       (processDevices env (channelFlags channels).1 (channelFlags channels).2.1
          (channelFlags channels).2.2 deviceIDs).errors = 0)) ∧
    ((processDevices env (channelFlags channels).1 (channelFlags channels).2.1
        (channelFlags channels).2.2 deviceIDs).delivered = true ↔
      ∃ a ∈ (processDevices env (channelFlags channels).1 (channelFlags channels).2.1
          (channelFlags channels).2.2 deviceIDs).attempts,
        a.status = .sent ∨ a.channel = .fcm ∨ a.channel = .apns) := by
  have hne : deviceIDs.isEmpty = false := by
    cases deviceIDs with
    | nil => exact absurd rfl hd
    | cons d ds => rfl
  set o := processDevices env (channelFlags channels).1 (channelFlags channels).2.1
    (channelFlags channels).2.2 deviceIDs with ho
  have hrun : sendNotificationToDevices env true nid deviceIDs channels =
      if o.delivered = false ∧ o.errors ≠ 0 then (⟨some nid, some .deliveryFailed⟩, o.attempts)
      else (⟨some nid, none⟩, o.attempts) := by
    unfold sendNotificationToDevices
    rw [if_neg (by simp), if_neg (by simp [hne])]
  have hdeliv : o.delivered = true ↔
      ∃ a ∈ o.attempts, a.status = .sent ∨ a.channel = .fcm ∨ a.channel = .apns := by
    rw [ho, processDevices_delivered_iff, List.any_eq_true]
    constructor
    · rintro ⟨a, ha, hp⟩
      simp only [Bool.or_eq_true, beq_iff_eq, or_assoc] at hp
      exact ⟨a, ha, hp⟩
    · rintro ⟨a, ha, hp⟩
      refine ⟨a, ha, ?_⟩
      simp only [Bool.or_eq_true, beq_iff_eq, or_assoc]
      exact hp
  rw [hrun]
  by_cases h1 : o.delivered = false ∧ o.errors ≠ 0
  · rw [if_pos h1]
    refine ⟨rfl, Or.inr rfl, ?_, hdeliv⟩
    simp only [show (some SendError.deliveryFailed ≠ none) from by simp]
    constructor
    · intro hc
      exact absurd hc (by simp)
    · intro hc
      rcases hc with hc | hc
      · rw [hc] at h1
        exact absurd h1.1 (by simp)
      · exact absurd hc h1.2
  · rw [if_neg h1]
    refine ⟨rfl, Or.inl rfl, ?_, hdeliv⟩
    constructor
    · intro _
      by_cases h2 : o.delivered = true
      · exact Or.inl h2
      · refine Or.inr ?_
        by_contra h3
        exact h1 ⟨by revert h2; cases o.delivered <;> simp, h3⟩
    · intro _
      rfl

/-- C2 witness: the characterization applied to the concrete counterexample
environment and target list. -/
theorem sendNotificationToDevices_characterization_witness :
    (sendNotificationToDevices c2Env true 7 [1] []).1.notificationID = some 7 :=
  (sendNotificationToDevices_characterization c2Env 7 [1] [] (by simp)).1

/-! ### Token authority (`token_service.go`, claim C7)

The recovery path is embedded end to end: `strings.Split` on the dot,
`utils.DecodeBase64URL` (`pkg/events/event_manager.go`, package `utils`: pad
to a multiple of 4 and decode with the padded URL-safe alphabet) and
`utils.JSONUnmarshal` (= `json.Unmarshal`, modelled for the flat objects the
authority issues). The issuance side mirrors `golang-jwt`'s `SignedString`:
`json.Marshal` of the claims, unpadded base64url (`RawURLEncoding`) of those
bytes, and the three segments joined with dots; the HMAC signature segment is
carried as an arbitrary dot-free string, never read by recovery. -/

/-- A JSON value, as far as the claims document is concerned. -/
inductive JsonVal
  | str (s : String)
  | num (n : Int)
  | boolean (b : Bool)
deriving DecidableEq, Repr

/-- A parsed claims document: a JSON object as key/value pairs. -/
abbrev JsonDoc := List (String × JsonVal)

/-- Go's `claims[key].(string)` type assertion: the value under `key` when it
is present and is a string. -/
def jsonLookupString (doc : JsonDoc) (key : String) : Option String :=
  match doc.lookup key with
  | some (.str s) => some s
  | _ => none

/-- `usecase.Claims` (`token_service.go` lines 27-34): the JWT claims carried
by a session credential, with Go zero values as defaults. -/
structure Claims where
  deviceID : String := ""
  deviceIdentifier : String := ""
  userID : String := ""
  isTemporary : Bool := false
  expiresAt : Int
  issuedAt : Int
deriving DecidableEq, Repr

/-- The JSON object `encoding/json` produces for `Claims`: fields in
declaration order, every string field `omitempty` (dropped when empty),
`temp` `omitempty` (dropped when false), and the registered claims
contribute `exp` and `iat`. -/
def claimsToJson (c : Claims) : JsonDoc :=
  (if c.deviceID == "" then [] else [("device_id", JsonVal.str c.deviceID)]) ++
  (if c.deviceIdentifier == "" then []
   else [("device_identifier", JsonVal.str c.deviceIdentifier)]) ++
  (if c.userID == "" then [] else [("user_id", JsonVal.str c.userID)]) ++
  (if c.isTemporary then [("temp", JsonVal.boolean true)] else []) ++
  [("exp", JsonVal.num c.expiresAt), ("iat", JsonVal.num c.issuedAt)]

/-- The URL-safe base64 alphabet of `encoding/base64.URLEncoding` and
`RawURLEncoding`. -/
def b64Alphabet : List Char :=
  ['A', 'B', 'C', 'D', 'E', 'F', 'G', 'H', 'I', 'J', 'K', 'L', 'M',
   'N', 'O', 'P', 'Q', 'R', 'S', 'T', 'U', 'V', 'W', 'X', 'Y', 'Z',
   'a', 'b', 'c', 'd', 'e', 'f', 'g', 'h', 'i', 'j', 'k', 'l', 'm',
   'n', 'o', 'p', 'q', 'r', 's', 't', 'u', 'v', 'w', 'x', 'y', 'z',
   '0', '1', '2', '3', '4', '5', '6', '7', '8', '9', '-', '_']

/-- The alphabet character of a 6-bit value. -/
def b64Char (i : Nat) : Char := b64Alphabet.getD i 'A'

/-- The 6-bit value of an alphabet character (`none` off the alphabet). -/
def b64Val (ch : Char) : Option Nat := b64Alphabet.indexOf? ch

/-- `base64.RawURLEncoding.EncodeToString` — the unpadded encoder `golang-jwt`
uses for every segment: 3 bytes become 4 characters, a 1- or 2-byte tail
becomes 2 or 3 characters and no padding is emitted. -/
def encodeB64 : List Nat → List Char
  | [] => []
  | [a] => [b64Char (a / 4), b64Char (a % 4 * 16)]
  | [a, b] => [b64Char (a / 4), b64Char (a % 4 * 16 + b / 16), b64Char (b % 16 * 4)]
  | a :: b :: c :: rest =>
      b64Char (a / 4) :: b64Char (a % 4 * 16 + b / 16) ::
        b64Char (b % 16 * 4 + c / 64) :: b64Char (c % 64) :: encodeB64 rest

/-- `base64.URLEncoding.DecodeString` — the padded decoder: the input is
consumed in groups of four characters, `=` padding is accepted only at the
end (one `=` yields a 2-byte tail, `==` a 1-byte tail), and any character off
the alphabet fails. Like Go's decoder, unused trailing bits are not
checked. -/
def decodeB64Padded : List Char → Option (List Nat)
  | [] => some []
  | c1 :: c2 :: c3 :: c4 :: rest =>
    match b64Val c1, b64Val c2 with
    | some v1, some v2 =>
      if c3 = '=' then
        if c4 = '=' ∧ rest = [] then some [v1 * 4 + v2 / 16] else none
      else
        match b64Val c3 with
        | some v3 =>
          if c4 = '=' then
            if rest = [] then some [v1 * 4 + v2 / 16, v2 % 16 * 16 + v3 / 4]
            else none
          else
            match b64Val c4 with
            | some v4 =>
              match decodeB64Padded rest with
              | some bs =>
                  some ((v1 * 4 + v2 / 16) :: (v2 % 16 * 16 + v3 / 4) ::
                    (v3 % 4 * 64 + v4) :: bs)
              | none => none
            | none => none
        | none => none
    | _, _ => none
  | _ => none

/-- The padding `utils.DecodeBase64URL` appends to a segment before
decoding. -/
def b64PadFor (l : List Char) : List Char :=
  if l.length % 4 ≠ 0 then List.replicate (4 - l.length % 4) '=' else []

/-- `utils.DecodeBase64URL` (`pkg/events/event_manager.go`, package `utils`):
pad the input with `=` to a multiple of four, then decode with the padded
URL-safe decoder. -/
def decodeBase64URL (encoded : List Char) : Option (List Nat) :=
  if encoded.length % 4 ≠ 0 then
    decodeB64Padded (encoded ++ List.replicate (4 - encoded.length % 4) '=')
  else decodeB64Padded encoded

/-- A character `encoding/json` emits verbatim inside a string literal:
printable ASCII that is not a quote, a backslash, or one of the
HTML-escaped characters. -/
def isPlainChar (ch : Char) : Bool :=
  32 ≤ ch.toNat && ch.toNat ≤ 126 &&
    ch ≠ '"' && ch ≠ '\\' && ch ≠ '<' && ch ≠ '>' && ch ≠ '&'

/-- A string `encoding/json` marshals without any escape sequence. -/
def isPlainString (s : String) : Bool := s.data.all isPlainChar

/-- The ASCII character of a decimal digit. -/
def digitChar (d : Nat) : Char := Char.ofNat (48 + d)

/-- The decimal digits of a natural number, most significant first. -/
def natDigits (n : Nat) : List Char :=
  if n < 10 then [digitChar n]
  else natDigits (n / 10) ++ [digitChar (n % 10)]
termination_by n
decreasing_by omega

/-- The decimal rendering of an integer, as `encoding/json` emits it for an
integral value. -/
def printInt (i : Int) : List Char :=
  if i < 0 then '-' :: natDigits i.natAbs else natDigits i.toNat

/-- A JSON string literal for a plain string: quotes around the verbatim
characters. -/
def printJString (s : List Char) : List Char := '"' :: s ++ ['"']

/-- The JSON rendering of a scalar value. -/
def printJsonVal : JsonVal → List Char
  | .str s => printJString s.data
  | .num i => printInt i
  | .boolean true => ['t', 'r', 'u', 'e']
  | .boolean false => ['f', 'a', 'l', 's', 'e']

/-- The comma-separated `key:value` list of a JSON object, compact as
`json.Marshal` emits it. -/
def printPairs : JsonDoc → List Char
  | [] => []
  | [(k, v)] => printJString k.data ++ ':' :: printJsonVal v
  | (k, v) :: rest => printJString k.data ++ ':' :: printJsonVal v ++ ',' :: printPairs rest

/-- The JSON object text `json.Marshal` produces for a flat document. -/
def printJsonObject (doc : JsonDoc) : List Char :=
  '\x7b' :: printPairs doc ++ ['\x7d']

/-- String-literal body parsing: up to the closing quote. Escape sequences are
rejected rather than decoded — the authority never issues a claim that needs
one (see `isPlainChar`). -/
def parseStringBody : List Char → Option (List Char × List Char)
  | [] => none
  | ch :: rest =>
      if ch = '"' then some ([], rest)
      else if ch = '\\' then none
      else
        match parseStringBody rest with
        | some (s, r) => some (ch :: s, r)
        | none => none

/-- Consume leading decimal digits, folding them onto `acc`. -/
def parseDigitsAux : List Char → Nat → Nat × List Char
  | [], acc => (acc, [])
  | ch :: rest, acc =>
      if ch.isDigit then parseDigitsAux rest (acc * 10 + (ch.toNat - 48))
      else (acc, ch :: rest)

/-- Parse an optionally negated decimal integer (fractions and exponents are
not modelled; the authority only issues integral `exp`/`iat`). -/
def parseNumber (l : List Char) : Option (Int × List Char) :=
  match l with
  | [] => none
  | ch :: rest =>
      if ch = '-' then
        match rest with
        | [] => none
        | ch2 :: rest2 =>
            if ch2.isDigit then
              some (-(((parseDigitsAux rest2 (ch2.toNat - 48)).1 : Int)),
                (parseDigitsAux rest2 (ch2.toNat - 48)).2)
            else none
      else if ch.isDigit then
        some (((parseDigitsAux rest (ch.toNat - 48)).1 : Int),
          (parseDigitsAux rest (ch.toNat - 48)).2)
      else none

/-- Parse one scalar JSON value: a string, `true`, `false`, or a number. -/
def parseJsonValue (l : List Char) : Option (JsonVal × List Char) :=
  match l with
  | [] => none
  | ch :: rest =>
      if ch = '"' then
        match parseStringBody rest with
        | some (s, r) => some (.str (String.mk s), r)
        | none => none
      else if ch = 't' then
        match rest with
        | r1 :: r2 :: r3 :: r =>
            if r1 = 'r' ∧ r2 = 'u' ∧ r3 = 'e' then some (.boolean true, r) else none
        | _ => none
      else if ch = 'f' then
        match rest with
        | r1 :: r2 :: r3 :: r4 :: r =>
            if r1 = 'a' ∧ r2 = 'l' ∧ r3 = 's' ∧ r4 = 'e' then
              some (.boolean false, r)
            else none
        | _ => none
      else
        match parseNumber (ch :: rest) with
        | some (i, r) => some (.num i, r)
        | none => none

/-- Parse the comma-separated pair list of a JSON object body; the fuel bounds
the number of pairs. -/
def parsePairs : Nat → List Char → Option (JsonDoc × List Char)
  | 0, _ => none
  | fuel + 1, l =>
    match l with
    | '"' :: rest =>
      match parseStringBody rest with
      | some (k, r1) =>
        match r1 with
        | ':' :: r2 =>
          match parseJsonValue r2 with
          | some (v, r3) =>
            match r3 with
            | ',' :: r4 =>
              match parsePairs fuel r4 with
              | some (doc, r5) => some ((String.mk k, v) :: doc, r5)
              | none => none
            | _ => some ([(String.mk k, v)], r3)
          | none => none
        | _ => none
      | none => none
    | _ => none

/-- `utils.JSONUnmarshal` (= `json.Unmarshal`) into `map[string]interface{}`,
modelled for the non-empty flat objects the authority issues: a braced,
fully-consumed pair list of scalar values. -/
def jsonUnmarshalObject (l : List Char) : Option JsonDoc :=
  match l with
  | '\x7b' :: rest =>
    match parsePairs (rest.length + 1) rest with
    | some (doc, '\x7d' :: rest2) => if rest2 = [] then some doc else none
    | _ => none
  | _ => none

/-- `strings.Split(s, ".")`: every maximal dot-free run, with empty runs
between adjacent dots. -/
def splitOnDot : List Char → List (List Char)
  | [] => [[]]
  | ch :: rest =>
      if ch = '.' then [] :: splitOnDot rest
      else
        match splitOnDot rest with
        | [] => [[ch]]
        | p :: ps => (ch :: p) :: ps

/-- `entity.Device` (`part_009`). Device ids are modelled as canonical UUID
strings produced by `uuid.String()`. -/
structure Device where
  id : String
  userID : Option Nat := none
  model : Option String := none
  deviceIdentifier : String
  verified : Bool := false
  lastAccess : Nat := 0
  lastUsed : Nat := 0
  createTime : Nat := 0
  updateTime : Nat := 0
  deleteTime : Option Nat := none
  status : String := "active"
deriving DecidableEq, Repr

/-- `postgres.DeviceRepository.GetByID` over the device table. -/
def getDeviceByID (devices : List Device) (id : String) : Option Device :=
  devices.find? (fun d => d.id == id)

/-- `uuid.Parse`: modelled as total, since every id this development feeds it
is a canonical UUID string produced by `uuid.String()` (on which the real
parser always succeeds). -/
def uuidParse (s : String) : Option String := some s

/-- Error values of `usecase.TokenService` (`token_service.go` lines 17-25),
plus the distinct decode/parse failures the extraction path returns. -/
inductive TokenError
  | invalidToken
  | tokenExpired
  | failedToGenerateToken
  | decodeFailed
  | unmarshalFailed
  | uuidInvalid
  | deviceNotFound
  | noDeviceIdentifierFound
deriving DecidableEq, Repr

/-- The first segment `jwt.SignedString` emits: the base64url encoding of the
fixed HS256/JWT header. Its content is irrelevant to recovery; what matters
is that it contains no dot. -/
def jwtHeaderSegment : List Char :=
  "eyJhbGciOiJIUzI1NiIsInR5cCI6IkpXVCJ9".data

/-- The claims segment of an issued credential: `json.Marshal` of the claims
(UTF-8 bytes — byte = code point on the ASCII output at hand), then the
unpadded base64url encoder. -/
def claimsSegment (c : Claims) : List Char :=
  encodeB64 ((printJsonObject (claimsToJson c)).map Char.toNat)

/-- `jwt.NewWithClaims(...).SignedString(secret)`: header, claims and
signature segments joined with dots. The HMAC signature is an arbitrary
base64url string, carried opaquely. -/
def signedToken (c : Claims) (sig : List Char) : List Char :=
  jwtHeaderSegment ++ '.' :: claimsSegment c ++ '.' :: sig

/-- `TokenService.GenerateTemporaryToken` (`token_service.go` lines 63-84):
claims carry only the device identifier, `temp = true`, and expiry
`now + tempExpiry`. -/
def generateTemporaryToken (deviceIdentifier : String) (now tempExpiry : Int)
    (sig : List Char) : List Char :=
  signedToken
    { deviceIdentifier := deviceIdentifier
      isTemporary := true
      expiresAt := now + tempExpiry
      issuedAt := now } sig

/-- `TokenService.GeneratePermanentToken` (`token_service.go` lines 87-116):
the device must exist; claims carry the device id, the device's identifier,
the user id, `temp = false`, and expiry `now + tokenExpiry`. -/
def generatePermanentToken (devices : List Device) (userID deviceID : String)
    (now tokenExpiry : Int) (sig : List Char) : Except TokenError (List Char) :=
  match getDeviceByID devices deviceID with
  | none => .error .deviceNotFound
  | some device =>
      .ok (signedToken
        { deviceID := deviceID
          deviceIdentifier := device.deviceIdentifier
          userID := userID
          isTemporary := false
          expiresAt := now + tokenExpiry
          issuedAt := now } sig)

/-- The `device_id` fallback of the extraction path (`token_service.go` lines
170-186): a present, non-empty `device_id` claim is UUID-parsed and resolved
through the device repository; otherwise the no-identifier error is
returned. -/
def extractViaDeviceID (devices : List Device) (doc : JsonDoc) :
    Except TokenError String :=
  match jsonLookupString doc "device_id" with
  | some deviceID =>
    if deviceID == "" then .error .noDeviceIdentifierFound
    else
      match uuidParse deviceID with
      | none => .error .uuidInvalid
      | some u =>
        match getDeviceByID devices u with
        | none => .error .deviceNotFound
        | some device => .ok device.deviceIdentifier
  | none => .error .noDeviceIdentifierFound

/-- `TokenService.ExtractDeviceIdentifierFromToken` (`token_service.go` lines
146-187): split on the dot into exactly three segments, base64url-decode and
JSON-parse the claims segment, prefer a present non-empty `device_identifier`
claim, else resolve `device_id`. Neither the signature segment nor `exp` is
ever consulted. -/
def extractDeviceIdentifierFromToken (devices : List Device)
    (tokenString : List Char) : Except TokenError String :=
  if (splitOnDot tokenString).length != 3 then .error .invalidToken
  else
    match (splitOnDot tokenString)[1]? with
    | none => .error .invalidToken
    | some seg =>
      match decodeBase64URL seg with
      | none => .error .decodeFailed
      | some claimsJSON =>
        match jsonUnmarshalObject (claimsJSON.map Char.ofNat) with
        | none => .error .unmarshalFailed
        | some doc =>
          match jsonLookupString doc "device_identifier" with
          | some di => if di == "" then extractViaDeviceID devices doc else .ok di
          | none => extractViaDeviceID devices doc

/-- Every alphabet character decodes back to its 6-bit value. -/
theorem b64Val_b64Char : ∀ i, i < 64 → b64Val (b64Char i) = some i := by decide

/-- No alphabet character is the padding character. -/
theorem b64Char_ne_eq : ∀ i, i < 64 → b64Char i ≠ '=' := by decide

/-- No alphabet character is the dot separator. -/
theorem b64Char_ne_dot : ∀ i, i < 64 → b64Char i ≠ '.' := by decide

/-- The unpadded encoder emits only alphabet characters, hence no dot. -/
theorem encodeB64_ne_dot : ∀ (bs : List Nat), (∀ x ∈ bs, x < 256) →
    ∀ ch ∈ encodeB64 bs, ch ≠ '.'
  | [], _ => by intro ch hch; simp [encodeB64] at hch
  | [a], h => by
    intro ch hch
    have ha := h a (by simp)
    simp only [encodeB64, List.mem_cons, List.not_mem_nil, or_false] at hch
    rcases hch with h1 | h1 <;> subst h1 <;> exact b64Char_ne_dot _ (by omega)
  | [a, b], h => by
    intro ch hch
    have ha := h a (by simp)
    have hb := h b (by simp)
    simp only [encodeB64, List.mem_cons, List.not_mem_nil, or_false] at hch
    rcases hch with h1 | h1 | h1 <;> subst h1 <;> exact b64Char_ne_dot _ (by omega)
  | a :: b :: c :: rest, h => by
    intro ch hch
    have ha := h a (by simp)
    have hb := h b (by simp)
    have hc := h c (by simp)
    have hrest : ∀ x ∈ rest, x < 256 := fun x hx => h x (by simp [hx])
    simp only [encodeB64, List.mem_cons] at hch
    rcases hch with h1 | h1 | h1 | h1 | h1
    · subst h1; exact b64Char_ne_dot _ (by omega)
    · subst h1; exact b64Char_ne_dot _ (by omega)
    · subst h1; exact b64Char_ne_dot _ (by omega)
    · subst h1; exact b64Char_ne_dot _ (by omega)
    · exact encodeB64_ne_dot rest hrest ch h1

/-- Decoding with the padding `utils.DecodeBase64URL` would add inverts the
unpadded encoder. -/
theorem decodeB64Padded_encode : ∀ (bs : List Nat), (∀ x ∈ bs, x < 256) →
    decodeB64Padded (encodeB64 bs ++ b64PadFor (encodeB64 bs)) = some bs
  | [], _ => by simp [encodeB64, b64PadFor, decodeB64Padded]
  | [a], h => by
    have ha := h a (by simp)
    have h1 := b64Val_b64Char (a / 4) (by omega)
    have h2 := b64Val_b64Char (a % 4 * 16) (by omega)
    show decodeB64Padded ([b64Char (a / 4), b64Char (a % 4 * 16)] ++
      b64PadFor [b64Char (a / 4), b64Char (a % 4 * 16)]) = some [a]
    have hpad : b64PadFor [b64Char (a / 4), b64Char (a % 4 * 16)] = ['=', '='] := by
      simp [b64PadFor, List.replicate]
    rw [hpad]
    show decodeB64Padded [b64Char (a / 4), b64Char (a % 4 * 16), '=', '='] = some [a]
    simp [decodeB64Padded, h1, h2]
    omega
  | [a, b], h => by
    have ha := h a (by simp)
    have hb := h b (by simp)
    have h1 := b64Val_b64Char (a / 4) (by omega)
    have h2 := b64Val_b64Char (a % 4 * 16 + b / 16) (by omega)
    have h3 := b64Val_b64Char (b % 16 * 4) (by omega)
    have hne := b64Char_ne_eq (b % 16 * 4) (by omega)
    show decodeB64Padded
      ([b64Char (a / 4), b64Char (a % 4 * 16 + b / 16), b64Char (b % 16 * 4)] ++
        b64PadFor [b64Char (a / 4), b64Char (a % 4 * 16 + b / 16), b64Char (b % 16 * 4)]) =
      some [a, b]
    have hpad : b64PadFor
        [b64Char (a / 4), b64Char (a % 4 * 16 + b / 16), b64Char (b % 16 * 4)] =
        ['='] := by
      simp [b64PadFor, List.replicate]
    rw [hpad]
    show decodeB64Padded
      [b64Char (a / 4), b64Char (a % 4 * 16 + b / 16), b64Char (b % 16 * 4), '='] =
      some [a, b]
    simp [decodeB64Padded, h1, h2, h3, if_neg hne]
    omega
  | a :: b :: c :: rest, h => by
    have ha := h a (by simp)
    have hb := h b (by simp)
    have hc := h c (by simp)
    have hrest : ∀ x ∈ rest, x < 256 := fun x hx => h x (by simp [hx])
    have IH := decodeB64Padded_encode rest hrest
    have h1 := b64Val_b64Char (a / 4) (by omega)
    have h2 := b64Val_b64Char (a % 4 * 16 + b / 16) (by omega)
    have h3 := b64Val_b64Char (b % 16 * 4 + c / 64) (by omega)
    have h4 := b64Val_b64Char (c % 64) (by omega)
    have hne3 := b64Char_ne_eq (b % 16 * 4 + c / 64) (by omega)
    have hne4 := b64Char_ne_eq (c % 64) (by omega)
    have henc : encodeB64 (a :: b :: c :: rest) =
        b64Char (a / 4) :: b64Char (a % 4 * 16 + b / 16) ::
          b64Char (b % 16 * 4 + c / 64) :: b64Char (c % 64) :: encodeB64 rest := rfl
    have hpadeq : b64PadFor (encodeB64 (a :: b :: c :: rest)) =
        b64PadFor (encodeB64 rest) := by
      rw [henc]
      unfold b64PadFor
      simp only [List.length_cons]
      have h4mod : ((encodeB64 rest).length + 1 + 1 + 1 + 1) % 4 =
          (encodeB64 rest).length % 4 := by omega
      rw [h4mod]
    rw [hpadeq, henc]
    simp only [List.cons_append]
    simp [decodeB64Padded, h1, h2, h3, h4, if_neg hne3, if_neg hne4, IH]
    omega

/-- `utils.DecodeBase64URL` inverts `golang-jwt`'s unpadded segment
encoder. -/
theorem decodeBase64URL_encode (bs : List Nat) (h : ∀ x ∈ bs, x < 256) :
    decodeBase64URL (encodeB64 bs) = some bs := by
  have hmain := decodeB64Padded_encode bs h
  unfold decodeBase64URL
  unfold b64PadFor at hmain
  split_ifs with hl
  · rw [if_pos hl] at hmain
    exact hmain
  · rw [if_neg hl, List.append_nil] at hmain
    exact hmain

/-- Splitting a dot-free run yields the single run. -/
theorem splitOnDot_no_dot (l : List Char) (h : ∀ ch ∈ l, ch ≠ '.') :
    splitOnDot l = [l] := by
  induction l with
  | nil => rfl
  | cons ch rest ih =>
    have hch := h ch (by simp)
    have hrest : ∀ c ∈ rest, c ≠ '.' := fun c hc => h c (by simp [hc])
    unfold splitOnDot
    rw [if_neg hch, ih hrest]

/-- Splitting past a leading dot-free run peels that run off. -/
theorem splitOnDot_append (l t : List Char) (h : ∀ ch ∈ l, ch ≠ '.') :
    splitOnDot (l ++ '.' :: t) = l :: splitOnDot t := by
  induction l with
  | nil =>
    show splitOnDot ('.' :: t) = [] :: splitOnDot t
    conv_lhs => unfold splitOnDot
    rw [if_pos rfl]
  | cons ch rest ih =>
    have hch := h ch (by simp)
    have hrest : ∀ c ∈ rest, c ≠ '.' := fun c hc => h c (by simp [hc])
    show splitOnDot (ch :: (rest ++ '.' :: t)) = (ch :: rest) :: splitOnDot t
    conv_lhs => unfold splitOnDot
    rw [if_neg hch, ih hrest]

/-- The split of an issued three-segment credential. -/
theorem splitOnDot_token (hseg cseg sig : List Char)
    (hh : ∀ ch ∈ hseg, ch ≠ '.') (hc : ∀ ch ∈ cseg, ch ≠ '.')
    (hs : ∀ ch ∈ sig, ch ≠ '.') :
    splitOnDot (hseg ++ '.' :: (cseg ++ '.' :: sig)) = [hseg, cseg, sig] := by
  rw [splitOnDot_append hseg _ hh, splitOnDot_append cseg _ hc,
    splitOnDot_no_dot sig hs]

/-- Decimal digit characters: digit class, value, byte bound, and distinctness
from the parser's structural characters. -/
theorem digitChar_facts : ∀ d, d < 10 →
    (digitChar d).isDigit = true ∧ (digitChar d).toNat - 48 = d ∧
    (digitChar d).toNat < 256 ∧ digitChar d ≠ '-' ∧ digitChar d ≠ '"' ∧
    digitChar d ≠ 't' ∧ digitChar d ≠ 'f' ∧ digitChar d ≠ '.' := by decide

/-- Every character of a decimal rendering is a digit below byte range. -/
theorem natDigits_facts (n : Nat) :
    ∀ ch ∈ natDigits n, ch.isDigit = true ∧ ch.toNat < 256 ∧ ch ≠ '.' := by
  induction n using Nat.strong_induction_on with
  | _ n ih =>
    intro ch hch
    unfold natDigits at hch
    split_ifs at hch with h10
    · simp only [List.mem_singleton] at hch
      subst hch
      obtain ⟨f1, _, f3, _, _, _, _, f8⟩ := digitChar_facts n h10
      exact ⟨f1, f3, f8⟩
    · rw [List.mem_append, List.mem_singleton] at hch
      rcases hch with hch | hch
      · exact ih (n / 10) (by omega) ch hch
      · subst hch
        obtain ⟨f1, _, f3, _, _, _, _, f8⟩ := digitChar_facts (n % 10) (by omega)
        exact ⟨f1, f3, f8⟩

/-- A decimal rendering is never empty. -/
theorem natDigits_ne_nil (n : Nat) : natDigits n ≠ [] := by
  unfold natDigits
  split_ifs <;> simp

/-- Folding the digit values over a decimal rendering recovers the number. -/
theorem natDigits_foldl (n : Nat) : ∀ acc : Nat,
    (natDigits n).foldl (fun a ch => a * 10 + (ch.toNat - 48)) acc =
      acc * 10 ^ (natDigits n).length + n := by
  induction n using Nat.strong_induction_on with
  | _ n ih =>
    intro acc
    unfold natDigits
    split_ifs with h10
    · obtain ⟨_, f2, _⟩ := digitChar_facts n h10
      simp [f2]
    · rw [List.foldl_append, ih (n / 10) (by omega) acc]
      obtain ⟨_, f2, _⟩ := digitChar_facts (n % 10) (by omega)
      simp only [List.foldl_cons, List.foldl_nil, f2, List.length_append,
        List.length_singleton]
      rw [pow_succ]
      have hsplit : (acc * 10 ^ (natDigits (n / 10)).length + n / 10) * 10 + n % 10 =
          acc * (10 ^ (natDigits (n / 10)).length * 10) + (n / 10 * 10 + n % 10) := by
        ring
      rw [hsplit, Nat.div_add_mod' n 10]

/-- The digit consumer stops at a non-digit (or the end). -/
theorem parseDigitsAux_stop (l : List Char) (acc : Nat)
    (h : ∀ ch, l.head? = some ch → ch.isDigit = false) :
    parseDigitsAux l acc = (acc, l) := by
  cases l with
  | nil => rfl
  | cons ch rest =>
    have := h ch rfl
    unfold parseDigitsAux
    rw [if_neg (by simp [this])]

/-- The digit consumer folds exactly the leading digit run. -/
theorem parseDigitsAux_run (ds : List Char) (hds : ∀ ch ∈ ds, ch.isDigit = true)
    (rest : List Char) (hrest : ∀ ch, rest.head? = some ch → ch.isDigit = false) :
    ∀ acc, parseDigitsAux (ds ++ rest) acc =
      (ds.foldl (fun a ch => a * 10 + (ch.toNat - 48)) acc, rest) := by
  induction ds with
  | nil =>
    intro acc
    simpa using parseDigitsAux_stop rest acc hrest
  | cons ch ds ih =>
    intro acc
    have hch := hds ch (by simp)
    show parseDigitsAux (ch :: (ds ++ rest)) acc = _
    unfold parseDigitsAux
    rw [if_pos hch, ih (fun c hc => hds c (by simp [hc]))]
    rfl

/-- The number parser inverts the integer printer when the remainder does not
begin with a digit. -/
theorem parseNumber_print (i : Int) (rest : List Char)
    (hrest : ∀ ch, rest.head? = some ch → ch.isDigit = false) :
    parseNumber (printInt i ++ rest) = some (i, rest) := by
  have hdigit_ne : ∀ ch : Char, ch.isDigit = true →
      ch ≠ '-' ∧ ch ≠ '"' ∧ ch ≠ 't' ∧ ch ≠ 'f' := by
    intro ch h
    refine ⟨?_, ?_, ?_, ?_⟩ <;> (rintro rfl; exact absurd h (by decide))
  unfold printInt
  split_ifs with hneg
  · obtain ⟨d, ds, hds⟩ : ∃ d ds, natDigits i.natAbs = d :: ds := by
      cases hnd : natDigits i.natAbs with
      | nil => exact absurd hnd (natDigits_ne_nil _)
      | cons d ds => exact ⟨d, ds, rfl⟩
    have hall : ∀ ch ∈ natDigits i.natAbs, ch.isDigit = true :=
      fun ch hch => (natDigits_facts _ ch hch).1
    have hd : d.isDigit = true := hall d (by rw [hds]; simp)
    have hdsall : ∀ ch ∈ ds, ch.isDigit = true :=
      fun ch hch => hall ch (by rw [hds]; simp [hch])
    show parseNumber ('-' :: (natDigits i.natAbs ++ rest)) = some (i, rest)
    rw [hds]
    show parseNumber ('-' :: (d :: (ds ++ rest))) = some (i, rest)
    unfold parseNumber
    dsimp only
    rw [if_pos rfl, if_pos hd, parseDigitsAux_run ds hdsall rest hrest]
    have hfold := natDigits_foldl i.natAbs (0 : Nat)
    rw [hds] at hfold
    simp only [List.foldl_cons, Nat.zero_mul, Nat.zero_add] at hfold
    simp only [hfold, Option.some.injEq, Prod.mk.injEq, and_true]
    omega
  · obtain ⟨d, ds, hds⟩ : ∃ d ds, natDigits i.toNat = d :: ds := by
      cases hnd : natDigits i.toNat with
      | nil => exact absurd hnd (natDigits_ne_nil _)
      | cons d ds => exact ⟨d, ds, rfl⟩
    have hall : ∀ ch ∈ natDigits i.toNat, ch.isDigit = true :=
      fun ch hch => (natDigits_facts _ ch hch).1
    have hd : d.isDigit = true := hall d (by rw [hds]; simp)
    have hdsall : ∀ ch ∈ ds, ch.isDigit = true :=
      fun ch hch => hall ch (by rw [hds]; simp [hch])
    rw [hds]
    show parseNumber (d :: (ds ++ rest)) = some (i, rest)
    unfold parseNumber
    dsimp only
    rw [if_neg (hdigit_ne d hd).1, if_pos hd,
      parseDigitsAux_run ds hdsall rest hrest]
    have hfold := natDigits_foldl i.toNat (0 : Nat)
    rw [hds] at hfold
    simp only [List.foldl_cons, Nat.zero_mul, Nat.zero_add] at hfold
    simp only [hfold, Option.some.injEq, Prod.mk.injEq, and_true]
    omega

/-- Unpacking the plain-character predicate. -/
theorem isPlainChar_props (ch : Char) (h : isPlainChar ch = true) :
    32 ≤ ch.toNat ∧ ch.toNat ≤ 126 ∧ ch ≠ '"' ∧ ch ≠ '\\' ∧ ch ≠ '<' ∧
    ch ≠ '>' ∧ ch ≠ '&' := by
  simp [isPlainChar] at h
  tauto

/-- A digit character is none of the parser's structural characters. -/
theorem isDigit_ne_structural (ch : Char) (h : ch.isDigit = true) :
    ch ≠ '-' ∧ ch ≠ '"' ∧ ch ≠ 't' ∧ ch ≠ 'f' := by
  refine ⟨?_, ?_, ?_, ?_⟩ <;> (rintro rfl; exact absurd h (by decide))

/-- The string-body parser consumes a plain run up to its closing quote. -/
theorem parseStringBody_plain (s : List Char)
    (h : ∀ ch ∈ s, isPlainChar ch = true) (rest : List Char) :
    parseStringBody (s ++ '"' :: rest) = some (s, rest) := by
  induction s with
  | nil =>
    show parseStringBody ('"' :: rest) = some ([], rest)
    conv_lhs => unfold parseStringBody
    rw [if_pos rfl]
  | cons ch s ih =>
    obtain ⟨_, _, hq, hb, _, _, _⟩ := isPlainChar_props ch (h ch (by simp))
    show parseStringBody (ch :: (s ++ '"' :: rest)) = some (ch :: s, rest)
    conv_lhs => unfold parseStringBody
    rw [if_neg hq, if_neg hb, ih (fun c hc => h c (by simp [hc]))]

/-- Which values the claims printer emits without escapes. -/
def plainVal : JsonVal → Bool
  | .str s => isPlainString s
  | _ => true

/-- The value parser inverts the value printer on plain scalar values, when
the remainder does not begin with a digit. -/
theorem parseJsonValue_print (v : JsonVal) (hv : plainVal v = true)
    (rest : List Char)
    (hrest : ∀ ch, rest.head? = some ch → ch.isDigit = false) :
    parseJsonValue (printJsonVal v ++ rest) = some (v, rest) := by
  cases v with
  | str s =>
    obtain ⟨sdata⟩ := s
    have hplain : ∀ ch ∈ sdata, isPlainChar ch = true := by
      simpa [plainVal, isPlainString, List.all_eq_true] using hv
    show parseJsonValue (('"' :: sdata ++ ['"']) ++ rest) =
      some (.str (String.mk sdata), rest)
    have hshape : ('"' :: sdata ++ ['"']) ++ rest =
        '"' :: (sdata ++ '"' :: rest) := by
      simp
    rw [hshape]
    conv_lhs => unfold parseJsonValue
    dsimp only
    rw [if_pos rfl, parseStringBody_plain sdata hplain rest]
  | num i =>
    have hne : printInt i ≠ [] := by
      unfold printInt
      split_ifs
      · simp
      · exact natDigits_ne_nil _
    obtain ⟨ch, tl, hct⟩ : ∃ ch tl, printInt i = ch :: tl := by
      cases hpi : printInt i with
      | nil => exact absurd hpi hne
      | cons a b => exact ⟨a, b, rfl⟩
    have hch_cases : ch = '-' ∨ ch.isDigit = true := by
      unfold printInt at hct
      split_ifs at hct
      · exact Or.inl (List.cons.inj hct).1.symm
      · exact Or.inr ((natDigits_facts _ ch (by rw [hct]; simp)).1)
    have h1 : ch ≠ '"' := by
      rcases hch_cases with rfl | hd
      · decide
      · exact (isDigit_ne_structural ch hd).2.1
    have h2 : ch ≠ 't' := by
      rcases hch_cases with rfl | hd
      · decide
      · exact (isDigit_ne_structural ch hd).2.2.1
    have h3 : ch ≠ 'f' := by
      rcases hch_cases with rfl | hd
      · decide
      · exact (isDigit_ne_structural ch hd).2.2.2
    show parseJsonValue (printInt i ++ rest) = some (.num i, rest)
    rw [hct]
    show parseJsonValue (ch :: (tl ++ rest)) = some (.num i, rest)
    conv_lhs => unfold parseJsonValue
    dsimp only
    rw [if_neg h1, if_neg h2, if_neg h3]
    have hnum : parseNumber (ch :: (tl ++ rest)) = some (i, rest) := by
      rw [show ch :: (tl ++ rest) = (ch :: tl) ++ rest from rfl, ← hct]
      exact parseNumber_print i rest hrest
    rw [hnum]
  | boolean b =>
    cases b with
    | true =>
      show parseJsonValue ('t' :: 'r' :: 'u' :: 'e' :: rest) =
        some (.boolean true, rest)
      conv_lhs => unfold parseJsonValue
      dsimp only
      rw [if_neg (by decide), if_pos rfl, if_pos ⟨rfl, rfl, rfl⟩]
    | false =>
      show parseJsonValue ('f' :: 'a' :: 'l' :: 's' :: 'e' :: rest) =
        some (.boolean false, rest)
      conv_lhs => unfold parseJsonValue
      dsimp only
      rw [if_neg (by decide), if_neg (by decide), if_pos rfl,
        if_pos ⟨rfl, rfl, rfl, rfl⟩]

/-- The documents whose printing needs no escape sequence: plain keys and
plain values. -/
def plainDoc (doc : JsonDoc) : Bool :=
  doc.all (fun p => isPlainString p.1 && plainVal p.2)

/-- The pair-list parser inverts the pair-list printer up to the closing
brace, given enough fuel. -/
theorem parsePairs_print : ∀ (doc : JsonDoc), plainDoc doc = true → doc ≠ [] →
    ∀ (fuel : Nat), doc.length ≤ fuel → ∀ rest2 : List Char,
    parsePairs fuel (printPairs doc ++ '\x7d' :: rest2) =
      some (doc, '\x7d' :: rest2)
  | [], _, hne, _, _, _ => absurd rfl hne
  | [(k, v)], hdoc, _, fuel, hfuel, rest2 => by
    obtain ⟨f, rfl⟩ : ∃ f, fuel = f + 1 := ⟨fuel - 1, by simp at hfuel; omega⟩
    obtain ⟨kdata⟩ := k
    have hkv : isPlainString (String.mk kdata) = true ∧ plainVal v = true := by
      simp only [plainDoc, List.all_cons, List.all_nil, Bool.and_eq_true,
        and_true] at hdoc
      tauto
    have hk : ∀ ch ∈ kdata, isPlainChar ch = true := by
      have := hkv.1
      simpa [isPlainString, List.all_eq_true] using this
    have hrest : ∀ ch, ('\x7d' :: rest2).head? = some ch → ch.isDigit = false := by
      intro ch hch
      simp only [List.head?_cons, Option.some.injEq] at hch
      subst hch
      decide
    have hval := parseJsonValue_print v hkv.2 ('\x7d' :: rest2) hrest
    have hshape : printPairs [(String.mk kdata, v)] ++ '\x7d' :: rest2 =
        '"' :: (kdata ++ '"' :: (':' :: (printJsonVal v ++ '\x7d' :: rest2))) := by
      simp [printPairs, printJString]
    rw [hshape]
    conv_lhs => unfold parsePairs
    simp only [parseStringBody_plain kdata hk, hval]
    rfl
  | (k, v) :: p :: ps, hdoc, _, fuel, hfuel, rest2 => by
    obtain ⟨f, rfl⟩ : ∃ f, fuel = f + 1 := ⟨fuel - 1, by simp at hfuel; omega⟩
    obtain ⟨kdata⟩ := k
    have hkv : isPlainString (String.mk kdata) = true ∧ plainVal v = true := by
      simp only [plainDoc, List.all_cons, Bool.and_eq_true] at hdoc
      tauto
    have htail : plainDoc (p :: ps) = true := by
      simp only [plainDoc, List.all_cons, Bool.and_eq_true] at hdoc ⊢
      tauto
    have hk : ∀ ch ∈ kdata, isPlainChar ch = true := by
      have := hkv.1
      simpa [isPlainString, List.all_eq_true] using this
    have hrest : ∀ ch, (',' :: (printPairs (p :: ps) ++ '\x7d' :: rest2)).head? =
        some ch → ch.isDigit = false := by
      intro ch hch
      simp only [List.head?_cons, Option.some.injEq] at hch
      subst hch
      decide
    have hval := parseJsonValue_print v hkv.2
      (',' :: (printPairs (p :: ps) ++ '\x7d' :: rest2)) hrest
    have IH := parsePairs_print (p :: ps) htail (by simp) f
      (by simp at hfuel ⊢; omega) rest2
    have hshape : printPairs ((String.mk kdata, v) :: p :: ps) ++ '\x7d' :: rest2 =
        '"' :: (kdata ++ '"' :: (':' :: (printJsonVal v ++
          ',' :: (printPairs (p :: ps) ++ '\x7d' :: rest2)))) := by
      simp [printPairs, printJString]
    rw [hshape]
    conv_lhs => unfold parsePairs
    simp only [parseStringBody_plain kdata hk, hval, IH]

/-- The printed pair list is at least as long as the document. -/
theorem printPairs_length : ∀ doc : JsonDoc, doc.length ≤ (printPairs doc).length
  | [] => by simp [printPairs]
  | [(k, v)] => by
    simp [printPairs, printJString]
  | (k, v) :: p :: ps => by
    have IH := printPairs_length (p :: ps)
    simp only [printPairs, printJString, List.length_append, List.length_cons,
      List.length_singleton] at IH ⊢
    omega

/-- `JSONUnmarshal` inverts `json.Marshal` on a non-empty plain flat
object. -/
theorem jsonUnmarshal_print (doc : JsonDoc) (hdoc : plainDoc doc = true)
    (hne : doc ≠ []) :
    jsonUnmarshalObject (printJsonObject doc) = some doc := by
  have hp := parsePairs_print doc hdoc hne
    ((printPairs doc ++ ['\x7d']).length + 1)
    (by
      have := printPairs_length doc
      simp only [List.length_append, List.length_singleton]
      omega)
    []
  show jsonUnmarshalObject ('\x7b' :: (printPairs doc ++ ['\x7d'])) = some doc
  have hstep : jsonUnmarshalObject ('\x7b' :: (printPairs doc ++ ['\x7d'])) =
      (match parsePairs ((printPairs doc ++ ['\x7d']).length + 1)
          (printPairs doc ++ ['\x7d']) with
       | some (d, '\x7d' :: rest2) => if rest2 = [] then some d else none
       | _ => none) := rfl
  rw [hstep, hp]
  rfl

/-- Every character of a printed string literal is an ASCII byte. -/
theorem printJString_bytes (s : List Char) (h : ∀ c ∈ s, isPlainChar c = true) :
    ∀ ch ∈ printJString s, ch.toNat < 256 := by
  intro ch hch
  simp only [printJString, List.cons_append, List.mem_cons, List.mem_append,
    List.mem_singleton, List.mem_nil_iff, or_false, or_assoc] at hch
  rcases hch with rfl | hch | rfl
  · decide
  · have := isPlainChar_props ch (h ch hch)
    omega
  · decide

/-- Every character of a printed plain scalar value is an ASCII byte. -/
theorem printJsonVal_bytes (v : JsonVal) (hv : plainVal v = true) :
    ∀ ch ∈ printJsonVal v, ch.toNat < 256 := by
  cases v with
  | str s =>
    have hplain : ∀ c ∈ s.data, isPlainChar c = true := by
      simpa [plainVal, isPlainString, List.all_eq_true] using hv
    exact fun ch hch => printJString_bytes s.data hplain ch hch
  | num i =>
    intro ch hch
    simp only [printJsonVal, printInt] at hch
    split_ifs at hch with hneg
    · rcases List.mem_cons.mp hch with rfl | hch2
      · decide
      · exact (natDigits_facts _ ch hch2).2.1
    · exact (natDigits_facts _ ch hch).2.1
  | boolean b =>
    cases b <;> decide

/-- Every character of a printed plain pair list is an ASCII byte. -/
theorem printPairs_bytes : ∀ (doc : JsonDoc), plainDoc doc = true →
    ∀ ch ∈ printPairs doc, ch.toNat < 256
  | [], _ => by intro ch hch; simp [printPairs] at hch
  | [(k, v)], hdoc => by
    have hkv : isPlainString k = true ∧ plainVal v = true := by
      simp only [plainDoc, List.all_cons, List.all_nil, Bool.and_eq_true,
        and_true] at hdoc
      exact hdoc
    have hk : ∀ c ∈ k.data, isPlainChar c = true := by
      have h := hkv.1
      simpa [isPlainString, List.all_eq_true] using h
    intro ch hch
    simp only [printPairs, List.mem_append, List.mem_cons] at hch
    rcases hch with hch | rfl | hch
    · exact printJString_bytes k.data hk ch hch
    · decide
    · exact printJsonVal_bytes v hkv.2 ch hch
  | (k, v) :: p :: ps, hdoc => by
    have hkv : isPlainString k = true ∧ plainVal v = true := by
      simp only [plainDoc, List.all_cons, Bool.and_eq_true] at hdoc
      tauto
    have htail : plainDoc (p :: ps) = true := by
      simp only [plainDoc, List.all_cons, Bool.and_eq_true] at hdoc ⊢
      tauto
    have hk : ∀ c ∈ k.data, isPlainChar c = true := by
      have h := hkv.1
      simpa [isPlainString, List.all_eq_true] using h
    intro ch hch
    simp only [printPairs, List.cons_append, List.append_assoc, List.mem_append,
      List.mem_cons, or_assoc] at hch
    rcases hch with hch | rfl | hch | rfl | hch
    · exact printJString_bytes k.data hk ch hch
    · decide
    · exact printJsonVal_bytes v hkv.2 ch hch
    · decide
    · exact printPairs_bytes (p :: ps) htail ch hch

/-- Every byte of the marshalled object text of a plain document is below
256, as the base64 encoder requires. -/
theorem printJsonObject_bytes (doc : JsonDoc) (hdoc : plainDoc doc = true) :
    ∀ x ∈ (printJsonObject doc).map Char.toNat, x < 256 := by
  intro x hx
  rcases List.mem_map.mp hx with ⟨ch, hch, rfl⟩
  simp only [printJsonObject, List.cons_append, List.mem_cons, List.mem_append,
    List.mem_singleton, List.mem_nil_iff, or_false, or_assoc] at hch
  rcases hch with rfl | hch | rfl
  · decide
  · exact printPairs_bytes doc hdoc ch hch
  · decide

/-- The claims document always carries `exp` and `iat`, so it is never
empty. -/
theorem claimsToJson_ne_nil (c : Claims) : claimsToJson c ≠ [] := by
  unfold claimsToJson
  split_ifs <;> simp

/-- The claims document is plain whenever the three string claims are. -/
theorem claimsToJson_plain (c : Claims)
    (h1 : isPlainString c.deviceID = true)
    (h2 : isPlainString c.deviceIdentifier = true)
    (h3 : isPlainString c.userID = true) :
    plainDoc (claimsToJson c) = true := by
  have k1 : isPlainString "device_id" = true := by decide
  have k2 : isPlainString "device_identifier" = true := by decide
  have k3 : isPlainString "user_id" = true := by decide
  have k4 : isPlainString "temp" = true := by decide
  have k5 : isPlainString "exp" = true := by decide
  have k6 : isPlainString "iat" = true := by decide
  unfold claimsToJson
  split_ifs <;>
    simp [plainDoc, plainVal, h1, h2, h3, k1, k2, k3, k4, k5, k6]

/-- The `device_identifier` claim of the marshalled document: present exactly
when the field is non-empty (`omitempty`). -/
theorem claimsToJson_lookup_identifier (c : Claims) :
    jsonLookupString (claimsToJson c) "device_identifier" =
      if c.deviceIdentifier == "" then none else some c.deviceIdentifier := by
  unfold claimsToJson jsonLookupString
  split_ifs <;> simp_all [List.lookup]

/-- The `device_id` claim of the marshalled document: present exactly when
the field is non-empty (`omitempty`). -/
theorem claimsToJson_lookup_deviceID (c : Claims) :
    jsonLookupString (claimsToJson c) "device_id" =
      if c.deviceID == "" then none else some c.deviceID := by
  unfold claimsToJson jsonLookupString
  split_ifs <;> simp_all [List.lookup]

/-- Extraction from an issued credential reduces to the claim lookups on the
original claims document: the split, the base64url decode and the JSON parse
all invert the issuance side. -/
theorem extract_signedToken (devices : List Device) (c : Claims)
    (sig : List Char) (hsig : ∀ ch ∈ sig, ch ≠ '.')
    (hplain : plainDoc (claimsToJson c) = true) :
    extractDeviceIdentifierFromToken devices (signedToken c sig) =
      match jsonLookupString (claimsToJson c) "device_identifier" with
      | some di => if di == "" then extractViaDeviceID devices (claimsToJson c)
                   else .ok di
      | none => extractViaDeviceID devices (claimsToJson c) := by
  have hbytes : ∀ x ∈ (printJsonObject (claimsToJson c)).map Char.toNat, x < 256 :=
    printJsonObject_bytes _ hplain
  have hcdot : ∀ ch ∈ claimsSegment c, ch ≠ '.' := encodeB64_ne_dot _ hbytes
  have hhdot : ∀ ch ∈ jwtHeaderSegment, ch ≠ '.' := by decide
  have hshape : signedToken c sig =
      jwtHeaderSegment ++ '.' :: (claimsSegment c ++ '.' :: sig) := by
    simp [signedToken]
  have hsplit : splitOnDot (signedToken c sig) =
      [jwtHeaderSegment, claimsSegment c, sig] := by
    rw [hshape]
    exact splitOnDot_token _ _ _ hhdot hcdot hsig
  have hdec : decodeBase64URL (claimsSegment c) =
      some ((printJsonObject (claimsToJson c)).map Char.toNat) :=
    decodeBase64URL_encode _ hbytes
  have hmap : (((printJsonObject (claimsToJson c)).map Char.toNat).map Char.ofNat) =
      printJsonObject (claimsToJson c) := by
    rw [List.map_map]
    have hcongr : ∀ ch ∈ printJsonObject (claimsToJson c),
        (Char.ofNat ∘ Char.toNat) ch = id ch := by
      intro ch _
      simp [Char.ofNat_toNat]
    rw [List.map_congr_left hcongr, List.map_id]
  have hstep : extractDeviceIdentifierFromToken devices (signedToken c sig) =
      (match decodeBase64URL (claimsSegment c) with
       | none => (.error .decodeFailed : Except TokenError String)
       | some claimsJSON =>
         match jsonUnmarshalObject (claimsJSON.map Char.ofNat) with
         | none => .error .unmarshalFailed
         | some doc =>
           match jsonLookupString doc "device_identifier" with
           | some di => if di == "" then extractViaDeviceID devices doc
                        else .ok di
           | none => extractViaDeviceID devices doc) := by
    unfold extractDeviceIdentifierFromToken
    rw [hsplit]
    rfl
  have hlast : (match jsonUnmarshalObject
        (((printJsonObject (claimsToJson c)).map Char.toNat).map Char.ofNat) with
      | none => (.error .unmarshalFailed : Except TokenError String)
      | some doc =>
        match jsonLookupString doc "device_identifier" with
        | some di => if di == "" then extractViaDeviceID devices doc
                     else .ok di
        | none => extractViaDeviceID devices doc) =
      match jsonLookupString (claimsToJson c) "device_identifier" with
      | some di => if di == "" then extractViaDeviceID devices (claimsToJson c)
                   else .ok di
      | none => extractViaDeviceID devices (claimsToJson c) := by
    rw [hmap, jsonUnmarshal_print _ hplain (claimsToJson_ne_nil c)]
  rw [hstep, hdec]
  exact hlast

/-- C7: extraction inverts issuance. A temporary token built over a non-empty
plain device identifier yields that identifier back; a permanent token for a
registered device yields the device's stored identifier — through the
preferred `device_identifier` claim when it is non-empty, and through the
`device_id` repository fallback otherwise. The signature segment (any
dot-free string) and the expiry are never consulted. -/
theorem extractDeviceIdentifier_recovers
    (devices : List Device) (now tempExpiry tokenExpiry : Int) (sig : List Char)
    (hsig : ∀ ch ∈ sig, ch ≠ '.')
    (di : String) (hdi : di ≠ "") (hdip : isPlainString di = true)
    (userID deviceID : String) (device : Device)
    (hdev : getDeviceByID devices deviceID = some device)
    (hdid : deviceID ≠ "") (hdidp : isPlainString deviceID = true)
    (huip : isPlainString userID = true)
    (hdevp : isPlainString device.deviceIdentifier = true) :
    extractDeviceIdentifierFromToken devices
        (generateTemporaryToken di now tempExpiry sig) = .ok di ∧
    ∃ tok, generatePermanentToken devices userID deviceID now tokenExpiry sig =
        .ok tok ∧
      extractDeviceIdentifierFromToken devices tok =
        .ok device.deviceIdentifier := by
  constructor
  · have hplainT : plainDoc (claimsToJson
        { deviceIdentifier := di, isTemporary := true,
          expiresAt := now + tempExpiry, issuedAt := now }) = true :=
      claimsToJson_plain
        { deviceIdentifier := di, isTemporary := true,
          expiresAt := now + tempExpiry, issuedAt := now }
        (by rfl) hdip (by rfl)
    unfold generateTemporaryToken
    rw [extract_signedToken devices _ sig hsig hplainT,
      claimsToJson_lookup_identifier]
    simp [hdi]
  · have hgen : generatePermanentToken devices userID deviceID now tokenExpiry sig =
        .ok (signedToken
          { deviceID := deviceID, deviceIdentifier := device.deviceIdentifier,
            userID := userID, isTemporary := false,
            expiresAt := now + tokenExpiry, issuedAt := now } sig) := by
      unfold generatePermanentToken
      rw [hdev]
    have hplainP : plainDoc (claimsToJson
        { deviceID := deviceID, deviceIdentifier := device.deviceIdentifier,
          userID := userID, isTemporary := false,
          expiresAt := now + tokenExpiry, issuedAt := now }) = true :=
      claimsToJson_plain
        { deviceID := deviceID, deviceIdentifier := device.deviceIdentifier,
          userID := userID, isTemporary := false,
          expiresAt := now + tokenExpiry, issuedAt := now }
        hdidp hdevp huip
    refine ⟨_, hgen, ?_⟩
    rw [extract_signedToken devices _ sig hsig hplainP,
      claimsToJson_lookup_identifier]
    by_cases hdio : device.deviceIdentifier = ""
    · simp only [hdio]
      rw [if_pos (by simp)]
      show extractViaDeviceID devices _ = _
      unfold extractViaDeviceID
      rw [claimsToJson_lookup_deviceID]
      simp [hdid, uuidParse, hdev, hdio]
    · simp [hdio]

/-- The device of the C7 witness repository. -/
def c7Device : Device :=
  { id := "6f1c2a44-9b5e-4f5d-8a27-3f52f7a6f001", deviceIdentifier := "dev-7" }

/-- C7 witness: recovery at a concrete repository, identifier, user and
signature. -/
theorem extractDeviceIdentifier_recovers_witness :
    extractDeviceIdentifierFromToken [c7Device]
        (generateTemporaryToken "sess-1" 100 3600 ['s', 'i', 'g']) =
      .ok "sess-1" ∧
    ∃ tok, generatePermanentToken [c7Device] "42"
        "6f1c2a44-9b5e-4f5d-8a27-3f52f7a6f001" 100 3600 ['s', 'i', 'g'] =
        .ok tok ∧
      extractDeviceIdentifierFromToken [c7Device] tok =
        .ok c7Device.deviceIdentifier :=
  extractDeviceIdentifier_recovers [c7Device] 100 3600 3600 ['s', 'i', 'g']
    (by decide) "sess-1" (by decide) (by decide) "42"
    "6f1c2a44-9b5e-4f5d-8a27-3f52f7a6f001" c7Device (by rfl) (by decide)
    (by decide) (by decide) (by decide)

/-! ### Channel-token registration (`part_014`, `token_service.go`, claim C8) -/

/-- 30 days in nanoseconds (`30 * 24 * time.Hour`), the default channel-token
lifetime. -/
def thirtyDaysNs : Nat := 30 * 24 * 60 * 60 * 1000000000

/-- `entity.NotificationToken` (`token.go`). -/
structure NotificationToken where
  id : Nat
  deviceID : Nat
  token : String
  tokenType : TokenType
  createdAt : Nat
  updatedAt : Nat
  expiresAt : Nat
  isActive : Bool
  isRevoked : Bool
deriving DecidableEq, Repr

/-- `entity.NewNotificationToken` (`token.go`): active, unrevoked, expiring in
30 days. The fresh UUID is passed in as `id`. -/
def newNotificationToken (id deviceID : Nat) (token : String) (tokenType : TokenType)
    (now : Nat) : NotificationToken :=
  { id := id
    deviceID := deviceID
    token := token
    tokenType := tokenType
    createdAt := now
    updatedAt := now
    expiresAt := now + thirtyDaysNs
    isActive := true
    isRevoked := false }

/-- `postgres.TokenRepository.Create` (`part_014` lines 25-48): a plain INSERT,
no replacement of prior rows. -/
def tokenRepoCreate (store : List NotificationToken) (t : NotificationToken) :
    List NotificationToken :=
  store ++ [t]

/-- `usecase.TokenService.SaveToken` (`token_service.go` lines 210-213): build
a fresh token and `Create` it. -/
def TokenService.saveToken (store : List NotificationToken) (freshID deviceID : Nat)
    (tokenValue : String) (tokenType : TokenType) (now : Nat) :
    List NotificationToken :=
  tokenRepoCreate store (newNotificationToken freshID deviceID tokenValue tokenType now)

/-- The row transformation of `postgres.TokenRepository.Upsert`'s UPDATE
(`part_014` lines 249-253): every row of the (device, type) pair gets the new
value, is reactivated and unrevoked, and its expiry pushed out 30 days; other
rows are untouched. -/
def upsertUpdateRow (deviceID : Nat) (tokenValue : String) (tokenType : TokenType)
    (now : Nat) (t : NotificationToken) : NotificationToken :=
  if t.deviceID == deviceID && t.tokenType == tokenType then
    { t with token := tokenValue, updatedAt := now, expiresAt := now + thirtyDaysNs,
             isActive := true, isRevoked := false }
  else t

/-- `postgres.TokenRepository.Upsert` (`part_014` lines 246-293): run the
UPDATE over the table; when it affected no row, INSERT a fresh one. -/
def tokenRepoUpsert (store : List NotificationToken) (freshID deviceID : Nat)
    (tokenValue : String) (tokenType : TokenType) (now : Nat) :
    List NotificationToken :=
  if store.any (fun t => t.deviceID == deviceID && t.tokenType == tokenType) then
    store.map (upsertUpdateRow deviceID tokenValue tokenType now)
  else
    store ++ [newNotificationToken freshID deviceID tokenValue tokenType now]

/-- Number of store rows for a (device, type) pair. -/
def pairRows (store : List NotificationToken) (deviceID : Nat) (tokenType : TokenType) :
    Nat :=
  store.countP (fun t => t.deviceID == deviceID && t.tokenType == tokenType)

/-- Number of active, non-revoked, non-expired rows for a (device, type) pair —
the tokens `GetByDeviceAndType`'s WHERE clause (`part_014` line 54) considers
live at instant `now`. -/
def activeTokenCount (store : List NotificationToken) (deviceID : Nat)
    (tokenType : TokenType) (now : Nat) : Nat :=
  store.countP (fun t => t.deviceID == deviceID && t.tokenType == tokenType &&
    t.isActive && !t.isRevoked && decide (now < t.expiresAt))

/-- C8 counterexample: registering a second token value for the same
(device, type) through `SaveToken` (the token-registration path backed by
`Create`) leaves two active, non-revoked, non-expired tokens for the pair —
the claim says the prior token is replaced and at most one remains. -/
theorem saveToken_creates_second_active_token :
    activeTokenCount
      (TokenService.saveToken
        (TokenService.saveToken [] 1 5 "tok-old" .fcm 0) 2 5 "tok-new" .fcm 0)
      5 .fcm 0 = 2 := by
  decide

/-- Live rows are among the pair's rows. -/
theorem activeTokenCount_le_pairRows (store : List NotificationToken)
    (deviceID : Nat) (tokenType : TokenType) (now : Nat) :
    activeTokenCount store deviceID tokenType now ≤ pairRows store deviceID tokenType := by
  apply List.countP_mono_left
  intro t _ h
  simp only [Bool.and_eq_true, decide_eq_true_eq] at h ⊢
  exact ⟨h.1.1.1.1, h.1.1.1.2⟩

/-- C8 (corrected): the `Upsert` entry point does replace rather than add — it
preserves the invariant that every (device, type) pair has at most one row,
hence at most one active, non-revoked, non-expired token; the invariant fails
only through the `SaveToken`/`Create` registration path, which inserts
unconditionally. -/
theorem upsert_preserves_unique_active (store : List NotificationToken)
    (freshID deviceID : Nat) (tokenValue : String) (tokenType : TokenType)
    (now : Nat) (h : ∀ d t, pairRows store d t ≤ 1) :
    (∀ d t, pairRows
      (tokenRepoUpsert store freshID deviceID tokenValue tokenType now) d t ≤ 1) ∧
    (∀ d t n, activeTokenCount
      (tokenRepoUpsert store freshID deviceID tokenValue tokenType now) d t n ≤ 1) := by
  have hpair : ∀ d t, pairRows
      (tokenRepoUpsert store freshID deviceID tokenValue tokenType now) d t ≤ 1 := by
    intro d t
    unfold tokenRepoUpsert
    split_ifs with hmatch
    · unfold pairRows
      rw [List.countP_map]
      have hkey : ∀ x : NotificationToken,
          (upsertUpdateRow deviceID tokenValue tokenType now x).deviceID = x.deviceID ∧
          (upsertUpdateRow deviceID tokenValue tokenType now x).tokenType = x.tokenType := by
        intro x
        unfold upsertUpdateRow
        split_ifs <;> exact ⟨rfl, rfl⟩
      have hcongr : ∀ x ∈ store,
          ((fun t0 : NotificationToken => t0.deviceID == d && t0.tokenType == t) ∘
            upsertUpdateRow deviceID tokenValue tokenType now) x ↔
          (fun t0 : NotificationToken => t0.deviceID == d && t0.tokenType == t) x := by
        intro x _
        show ((upsertUpdateRow deviceID tokenValue tokenType now x).deviceID == d &&
            (upsertUpdateRow deviceID tokenValue tokenType now x).tokenType == t) = true ↔
          (x.deviceID == d && x.tokenType == t) = true
        rw [(hkey x).1, (hkey x).2]
      rw [List.countP_congr hcongr]
      exact h d t
    · unfold pairRows
      rw [List.countP_append]
      by_cases hd : d = deviceID ∧ t = tokenType
      · obtain ⟨hd1, hd2⟩ := hd
        subst hd1
        subst hd2
        have hzero : pairRows store d t = 0 := by
          unfold pairRows
          rw [List.countP_eq_zero]
          intro a ha
          intro hcontra
          exact hmatch (List.any_eq_true.2 ⟨a, ha, hcontra⟩)
        unfold pairRows at hzero
        rw [hzero]
        simp [newNotificationToken]
      · have hone : List.countP
            (fun t0 : NotificationToken => t0.deviceID == d && t0.tokenType == t)
            [newNotificationToken freshID deviceID tokenValue tokenType now] = 0 := by
          rw [List.countP_eq_zero]
          intro a ha
          simp only [List.mem_singleton] at ha
          subst ha
          simp only [newNotificationToken, Bool.and_eq_true, beq_iff_eq]
          intro hcontra
          exact hd ⟨hcontra.1.symm, hcontra.2.symm⟩
        rw [hone]
        exact Nat.le_trans (Nat.le_of_eq (Nat.add_zero _)) (h d t)
  exact ⟨hpair, fun d t n =>
    Nat.le_trans (activeTokenCount_le_pairRows _ d t n) (hpair d t)⟩

/-- C8 witness: the upsert invariant applied to a concrete one-row store. -/
theorem upsert_preserves_unique_active_witness :
    pairRows
      (tokenRepoUpsert [newNotificationToken 1 5 "tok-old" .fcm 0] 2 5 "tok-new" .fcm 9)
      5 .fcm ≤ 1 :=
  (upsert_preserves_unique_active [newNotificationToken 1 5 "tok-old" .fcm 0]
    2 5 "tok-new" .fcm 9
    (by
      intro d t
      exact List.countP_le_length
        (fun t0 : NotificationToken => t0.deviceID == d && t0.tokenType == t))).1 5 .fcm

/-! ### Device linking (`part_009`, `device_service.go`, claim C9) -/

/-- Error values of `usecase.DeviceService` (`device_service.go` lines 15-22). -/
inductive DeviceError
  | deviceNotFound
  | failedToSaveDevice
  | failedToUpdateDevice
deriving DecidableEq, Repr

/-- `entity.Device.LinkToUser` (`part_009` lines 58-62): sets `UserID` to the
given user unconditionally — there is no check that the device is unlinked. -/
def Device.linkToUser (d : Device) (userID : Nat) (now : Nat) : Device :=
  { d with userID := some userID, updateTime := now }

/-- `postgres.DeviceRepository.Update` (`part_015`): writes the passed device's
fields over the row with its id. -/
def repoUpdateDevice (devices : List Device) (d : Device) : List Device :=
  devices.map (fun x => if x.id == d.id then d else x)

/-- `postgres.DeviceRepository.GetByDeviceIdentifier` over the device table. -/
def getByDeviceIdentifier (devices : List Device) (identifier : String) :
    Option Device :=
  devices.find? (fun d => d.deviceIdentifier == identifier)

/-- `usecase.DeviceService.LinkDeviceToUser` (`device_service.go` lines
104-119): fetch the device and link it — with no guard on an existing
`user_id`. -/
def DeviceService.linkDeviceToUser (devices : List Device) (deviceID : String)
    (userID : Nat) (now : Nat) : Except DeviceError (List Device) :=
  match getDeviceByID devices deviceID with
  | none => .error .deviceNotFound
  | some device => .ok (repoUpdateDevice devices (device.linkToUser userID now))

/-- `usecase.DeviceService.RegisterDeviceWithUser` (`device_service.go` lines
66-93): an existing device (by identifier) has its last access refreshed and is
re-linked to the given user unconditionally; otherwise a new device is created
already owned by the user. Returns the device handed back to the caller and
the updated table. -/
def DeviceService.registerDeviceWithUser (devices : List Device)
    (deviceIdentifier : String) (userID : Nat) (model : Option String)
    (freshID : String) (now : Nat) : Device × List Device :=
  match getByDeviceIdentifier devices deviceIdentifier with
  | some existing =>
      let updated :=
        { (existing.linkToUser userID now) with
          lastAccess := now,
          model := match model with | some m => some m | none => existing.model }
      (updated, repoUpdateDevice devices updated)
  | none =>
      let newDevice : Device :=
        { id := freshID
          userID := some userID
          model := model
          deviceIdentifier := deviceIdentifier
          verified := false
          lastAccess := now
          lastUsed := now
          createTime := now
          updateTime := now
          status := "active" }
      (newDevice, devices ++ [newDevice])

/-- A device already linked to user 1, the C9 counterexample input. -/
def c9Device : Device :=
  { id := "D", deviceIdentifier := "phys-9", userID := some 1 }

/-- C9 counterexample: `LinkDeviceToUser` on a device already linked to user 1
re-links it to user 2 — the claim says a linked device's `user_id` is never
changed to a different user. -/
theorem linkDeviceToUser_relinks_different_user :
    c9Device.userID = some 1 ∧
    DeviceService.linkDeviceToUser [c9Device] "D" 2 5 =
      .ok [{ c9Device with userID := some 2, updateTime := 5 }] := by
  exact ⟨rfl, rfl⟩

/-- C9 (corrected): `Device.LinkToUser` sets `user_id` to the given user
unconditionally, and both link entry points (`LinkDeviceToUser` on an existing
device, `RegisterDeviceWithUser` on an already-registered identifier) overwrite
any previously linked user with the new one, rather than linking at most
once. -/
theorem linkToUser_overwrites_user (devices : List Device) (deviceID : String)
    (identifier : String) (userID : Nat) (model : Option String)
    (freshID : String) (now : Nat) :
    (∀ d : Device, (d.linkToUser userID now).userID = some userID) ∧
    (∀ device, getDeviceByID devices deviceID = some device →
      DeviceService.linkDeviceToUser devices deviceID userID now =
        .ok (repoUpdateDevice devices (device.linkToUser userID now))) ∧
    (∀ existing, getByDeviceIdentifier devices identifier = some existing →
      (DeviceService.registerDeviceWithUser devices identifier userID model
        freshID now).1.userID = some userID) := by
  refine ⟨fun d => rfl, ?_, ?_⟩
  · intro device hdev
    unfold DeviceService.linkDeviceToUser
    rw [hdev]
  · intro existing hex
    unfold DeviceService.registerDeviceWithUser
    rw [hex]
    rfl

/-- C9 witness: both entry points applied to the concrete linked device. -/
theorem linkToUser_overwrites_user_witness :
    DeviceService.linkDeviceToUser [c9Device] "D" 3 6 =
      .ok (repoUpdateDevice [c9Device] (c9Device.linkToUser 3 6)) ∧
    (DeviceService.registerDeviceWithUser [c9Device] "phys-9" 3 none "F" 6).1.userID =
      some 3 := by
  constructor
  · exact (linkToUser_overwrites_user [c9Device] "D" "phys-9" 3 none "F" 6).2.1
      c9Device (by decide)
  · exact (linkToUser_overwrites_user [c9Device] "D" "phys-9" 3 none "F" 6).2.2
      c9Device (by decide)

end NotificationService
